import Mathlib

/-!
Verification of the payment-schedule reconciliation engine, status derivation,
monthly aggregation and calendar filtering of the notawang calendar dashboard.

The JavaScript source is shallowly embedded:
* JavaScript numbers (amounts, percentages) are modelled as rationals.
* The remote transaction table is modelled as a `List Txn`; inserting appends,
  and the find-then-delete-by-id pattern (ids are unique in the store) is
  modelled by removing the first element matching the find predicate.
* Template interpolation of an integer is modelled by `natStr` (decimal
  notation, the same text JavaScript produces for a natural number).
* `String.prototype.startsWith` is modelled by `strStartsWith` (prefix test on
  the character list) and `id.split(sep)[0]` by `takeUntilSep` (characters
  before the first occurrence of the separator).
* Date objects are represented by their (year, month) pair where only the
  month comparison matters, and by ISO strings elsewhere; "today" is passed in
  as the string `new Date().toISOString().split('T')[0]` would produce.
-/

/-- Decimal digit character for a value below ten (values ten or above all map
to the digit nine; the embedding only applies it to values below ten). -/
def digitChar (d : Nat) : Char :=
  match d with
  | 0 => '0' | 1 => '1' | 2 => '2' | 3 => '3' | 4 => '4'
  | 5 => '5' | 6 => '6' | 7 => '7' | 8 => '8' | _ => '9'

/-- Numeric value of a decimal digit character (inverse of `digitChar`). -/
def charVal (c : Char) : Nat :=
  match c with
  | '0' => 0 | '1' => 1 | '2' => 2 | '3' => 3 | '4' => 4
  | '5' => 5 | '6' => 6 | '7' => 7 | '8' => 8 | _ => 9

/-- Big-endian digit list of a natural number, fuel-structured so that the
kernel can evaluate it. -/
def natDigitsAux : Nat → Nat → List Char
  | 0, _ => []
  | fuel + 1, n => if n = 0 then [] else natDigitsAux fuel (n / 10) ++ [digitChar (n % 10)]

/-- Decimal string of a natural number; models JavaScript template
interpolation of an integer-valued number. -/
def natStr (n : Nat) : String :=
  if n = 0 then "0" else ⟨natDigitsAux (n + 1) n⟩

/-- Models JavaScript `s.startsWith(p)`. -/
def strStartsWith (s p : String) : Bool :=
  p.data.isPrefixOf s.data

/-- Characters strictly before the first occurrence of the separator
(the whole list when the separator does not occur). -/
def takeUntilSep (sep : List Char) : List Char → List Char
  | [] => []
  | c :: cs => if sep.isPrefixOf (c :: cs) then [] else c :: takeUntilSep sep cs

/-- Models JavaScript `s.split(sep)[0]` for a non-empty separator. -/
def splitHead (s sep : String) : String :=
  ⟨takeUntilSep sep.data s.data⟩

/-- Removes the first element satisfying the predicate, if any: the effect of
`find` followed by a delete keyed on the unique id of the found row. -/
def removeFirstMatch {α : Type} (p : α → Bool) : List α → List α
  | [] => []
  | t :: ts => if p t then ts else t :: removeFirstMatch p ts

-- === DATA MODEL (transactions table row and payment schedule) ===

/-- A row of the transactions table (the fields the reconciliation and
aggregation code reads and writes). -/
structure Txn where
  date : String
  type : String
  title : String
  description : String
  amount : ℚ
deriving DecidableEq

/-- A milestone of a staggered payment schedule. -/
structure Milestone where
  percentage : ℚ
  due_date : Option String
  completed : Bool
  name : Option String
deriving DecidableEq

/-- The persisted `payment_schedule` JSON value: a full schedule, a staggered
schedule, or a legacy/unknown shape (absent or unrecognised `type`). -/
inductive PaymentSchedule where
  | full (due_date : Option String) (completed : Bool)
  | staggered (milestones : List Milestone)
  | other
deriving DecidableEq

def PaymentSchedule.isStaggeredType : PaymentSchedule → Bool
  | .staggered _ => true
  | _ => false

def PaymentSchedule.isFullType : PaymentSchedule → Bool
  | .full _ _ => true
  | _ => false

/-- Reads `schedule?.completed || false` (false for staggered and legacy
shapes, which have no `completed` field). -/
def PaymentSchedule.completedFlag : PaymentSchedule → Bool
  | .full _ c => c
  | _ => false

/-- Reads `schedule.due_date` (absent on staggered and legacy shapes). -/
def PaymentSchedule.dueDate : PaymentSchedule → Option String
  | .full d _ => d
  | _ => none

def PaymentSchedule.milestonesOf : PaymentSchedule → List Milestone
  | .staggered ms => ms
  | _ => []

/-- The project fields the payment handlers read from the form data being
saved (`newProjectData`) and from the stored original project. -/
structure ProjectData where
  name : String
  contactName : String
  total_amount : ℚ
  payment_schedule : PaymentSchedule
deriving DecidableEq

-- === PAYMENT RECONCILIATION ENGINE (js/project-form/ProjectFormPayments.js) ===

/-- Title of a milestone income record, from `createMilestoneIncome`. -/
def milestoneIncomeTitle (projectName : String) : String :=
  "Milestone payment from " ++ projectName

/-- Description of a milestone income record, from `createMilestoneIncome`
(`milestoneNumber` is the 1-based milestone number). -/
def milestoneIncomeDesc (projectName : String) (milestoneNumber : Nat) : String :=
  "Milestone payment for " ++ projectName ++ " (Milestone " ++ natStr milestoneNumber ++ ")"

/-- Title of a full-payment income record, from `createFullPaymentIncome`. -/
def fullIncomeTitle (projectName : String) : String :=
  "Project Payment: " ++ projectName

/-- The income record built by `createMilestoneIncome` for milestone
`index` (0-based). -/
def mkMilestoneIncome (today : String) (projectData : ProjectData) (milestone : Milestone)
    (milestoneIndex : Nat) : Txn :=
  { date := milestone.due_date.getD today
    type := "income"
    title := milestoneIncomeTitle projectData.name
    description := milestoneIncomeDesc projectData.name (milestoneIndex + 1)
    amount := projectData.total_amount * milestone.percentage / 100 }

/-- `createMilestoneIncome`: builds the milestone income record and saves it
(insertion appends to the transaction store). -/
def createMilestoneIncome (today : String) (projectData : ProjectData) (milestone : Milestone)
    (milestoneIndex : Nat) (store : List Txn) : List Txn :=
  store ++ [mkMilestoneIncome today projectData milestone milestoneIndex]

/-- The income record built by `createFullPaymentIncome`. -/
def mkFullPaymentIncome (today : String) (projectData : ProjectData)
    (paymentSchedule : PaymentSchedule) : Txn :=
  { date := paymentSchedule.dueDate.getD today
    type := "income"
    title := fullIncomeTitle projectData.name
    description := "Full payment from " ++ projectData.contactName
    amount := projectData.total_amount }

/-- `createFullPaymentIncome`: builds the full-payment income record and
saves it. -/
def createFullPaymentIncome (today : String) (projectData : ProjectData)
    (paymentSchedule : PaymentSchedule) (store : List Txn) : List Txn :=
  store ++ [mkFullPaymentIncome today projectData paymentSchedule]

/-- The `find` predicate of `removeMilestoneIncome`: an income transaction
whose title is the project's milestone title or whose description names this
exact milestone number. -/
def milestoneIncomePred (projectName : String) (milestoneNumber : Nat) (t : Txn) : Bool :=
  t.type == "income" &&
    (t.title == milestoneIncomeTitle projectName ||
      t.description == milestoneIncomeDesc projectName milestoneNumber)

/-- `removeMilestoneIncome`: finds the first matching income entry and deletes
it by id; no match leaves the store unchanged. -/
def removeMilestoneIncome (projectName : String) (milestoneNumber : Nat)
    (store : List Txn) : List Txn :=
  removeFirstMatch (milestoneIncomePred projectName milestoneNumber) store

/-- The `find` predicate of `removeFullPaymentIncome`. -/
def fullIncomePred (projectName : String) (t : Txn) : Bool :=
  t.type == "income" && t.title == fullIncomeTitle projectName

/-- `removeFullPaymentIncome`: finds the first income entry with the
full-payment title and deletes it; no match leaves the store unchanged. -/
def removeFullPaymentIncome (projectName : String) (store : List Txn) : List Txn :=
  removeFirstMatch (fullIncomePred projectName) store

/-- Result of `analyzeMilestoneStatusChange`. -/
inductive StatusChange where
  | NEWLY_PAID
  | UNPAID
  | NO_CHANGE
deriving DecidableEq

/-- `analyzeMilestoneStatusChange`: compares `newMilestone.completed || false`
with `oldMilestone?.completed || false`. -/
def analyzeMilestoneStatusChange (newMilestone : Milestone) (oldMilestone : Option Milestone) :
    StatusChange :=
  let newCompleted := newMilestone.completed
  let oldCompleted := (oldMilestone.map (·.completed)).getD false
  if newCompleted && !oldCompleted then .NEWLY_PAID
  else if !newCompleted && oldCompleted then .UNPAID
  else .NO_CHANGE

/-- The loop body of `handleStaggeredPaymentChanges`, recursing over the new
milestones with their 0-based index; `oldMilestones` is indexed at the same
position (`oldSchedule.milestones[index]`). -/
def handleStaggeredFrom (today : String) (projectData : ProjectData)
    (oldMilestones : List Milestone) : Nat → List Txn → List Milestone → List Txn
  | _, store, [] => store
  | index, store, newMilestone :: rest =>
    let store' :=
      match analyzeMilestoneStatusChange newMilestone oldMilestones[index]? with
      | .NEWLY_PAID => createMilestoneIncome today projectData newMilestone index store
      | .UNPAID => removeMilestoneIncome projectData.name (index + 1) store
      | .NO_CHANGE => store
    handleStaggeredFrom today projectData oldMilestones (index + 1) store' rest

/-- `handleStaggeredPaymentChanges`: processes each milestone of the new
schedule against the old schedule.  Deliberately creates no aggregate
full-payment entry. -/
def handleStaggeredPaymentChanges (today : String) (projectData : ProjectData)
    (newSchedule oldSchedule : PaymentSchedule) (store : List Txn) : List Txn :=
  handleStaggeredFrom today projectData oldSchedule.milestonesOf 0 store
    newSchedule.milestonesOf

/-- `handleFullPaymentChanges`: compares the old and new `completed` flags and
creates or removes the full-payment income accordingly. -/
def handleFullPaymentChanges (today : String) (projectData : ProjectData)
    (newSchedule oldSchedule : PaymentSchedule) (store : List Txn) : List Txn :=
  let wasCompleted := oldSchedule.completedFlag
  let isCompleted := newSchedule.completedFlag
  if isCompleted && !wasCompleted then
    createFullPaymentIncome today projectData newSchedule store
  else if !isCompleted && wasCompleted then
    removeFullPaymentIncome projectData.name store
  else store

/-- `handlePaymentStatusChanges`: the main entry point.  Without an original
project to compare against it does nothing; otherwise it routes staggered-to-
staggered saves to the staggered handler, saves whose new schedule is full to
the full handler, and anything else to no action. -/
def handlePaymentStatusChanges (today : String) (originalProject : Option ProjectData)
    (newProjectData : ProjectData) (store : List Txn) : List Txn :=
  match originalProject with
  | none => store
  | some originalProject =>
    let newSchedule := newProjectData.payment_schedule
    let oldSchedule := originalProject.payment_schedule
    if newSchedule.isStaggeredType && oldSchedule.isStaggeredType then
      handleStaggeredPaymentChanges today newProjectData newSchedule oldSchedule store
    else if newSchedule.isFullType then
      handleFullPaymentChanges today newProjectData newSchedule oldSchedule store
    else store

-- === PROJECT STATUS DERIVATION (ProjectFormRenderer.autoUpdateProjectStatus) ===

/-- A milestone row of the form: the parsed percentage input
(`parseFloat`, `none` when not a number) and the completed checkbox. -/
structure MilestoneRow where
  percentage : Option ℚ
  completed : Bool
deriving DecidableEq

/-- A milestone row counts as active when its percentage parses to a number
greater than zero (`!isNaN(percentage) && percentage > 0`). -/
def milestoneRowActive (row : MilestoneRow) : Bool :=
  match row.percentage with
  | some p => decide (0 < p)
  | none => false

/-- `ProjectFormRenderer.autoUpdateProjectStatus` as a pure function of the
form state.  Only statuses invoice / partially_paid / completed are
recomputed; the milestone loop counts active rows and completed active
rows. -/
def autoUpdateProjectStatus (currentStatus : String) (paymentType : Option String)
    (fullPaymentChecked : Bool) (milestoneRows : List MilestoneRow) : String :=
  if !(["invoice", "partially_paid", "completed"].contains currentStatus) then
    currentStatus
  else
    if paymentType == some "full" then
      if fullPaymentChecked then "completed" else "invoice"
    else if paymentType == some "staggered" then
      let activeRows := milestoneRows.filter milestoneRowActive
      let totalMilestones := activeRows.length
      let completedMilestones := (activeRows.filter (·.completed)).length
      if totalMilestones == 0 || completedMilestones == 0 then "invoice"
      else if completedMilestones == totalMilestones then "completed"
      else "partially_paid"
    else "invoice"

-- === MONTHLY AGGREGATION (js/transactions.js processAllTransactions) ===

/-- The accumulators touched by the transaction pass of
`processAllTransactions`: the running balance and the cash-in/cash-out
buckets of the viewed month and the previous month. -/
structure TxnAgg where
  balance : ℚ
  thisCashIn : ℚ
  thisCashOut : ℚ
  lastCashIn : ℚ
  lastCashOut : ℚ
deriving DecidableEq

/-- One iteration of the transaction forEach: balance is updated for every
income/expense, the month buckets only on a date-prefix match (the last-month
branch is an else-if). -/
def txnStep (thisMonthString lastMonthString : String) (acc : TxnAgg) (data : Txn) : TxnAgg :=
  let acc :=
    if data.type == "income" then { acc with balance := acc.balance + data.amount } else acc
  let acc :=
    if data.type == "expense" then { acc with balance := acc.balance - data.amount } else acc
  if strStartsWith data.date thisMonthString then
    let acc :=
      if data.type == "income" then { acc with thisCashIn := acc.thisCashIn + data.amount }
      else acc
    if data.type == "expense" then { acc with thisCashOut := acc.thisCashOut + data.amount }
    else acc
  else if strStartsWith data.date lastMonthString then
    let acc :=
      if data.type == "income" then { acc with lastCashIn := acc.lastCashIn + data.amount }
      else acc
    if data.type == "expense" then { acc with lastCashOut := acc.lastCashOut + data.amount }
    else acc
  else acc

/-- The transaction pass of `processAllTransactions` over the whole list. -/
def processTransactionsPass (thisMonthString lastMonthString : String)
    (transactions : List Txn) : TxnAgg :=
  transactions.foldl (txnStep thisMonthString lastMonthString)
    { balance := 0, thisCashIn := 0, thisCashOut := 0, lastCashIn := 0, lastCashOut := 0 }

/-- `String(m).padStart(2, '0')` for a month number. -/
def padTwo (n : Nat) : String :=
  if n < 10 then "0" ++ natStr n else natStr n

/-- The `YYYY-MM` key built from a year and a 1-based month. -/
def monthKey (year month : Nat) : String :=
  natStr year ++ "-" ++ padTwo month

/-- The (year, month) one month before the viewed (year, month), as
`new Date(y, m - 1, 1)` normalises it. -/
def prevYearMonth (year month : Nat) : Nat × Nat :=
  if month = 1 then (year - 1, 12) else (year, month - 1)

-- === QUOTATION PASS (processAllTransactions, quotation dedup by project id) ===

/-- An entry of `projectData.quotations` as the quotation pass reads it: the
raw id, the optional `project_id`, the amount, and the (year, month) of
`new Date(target_date || created_at)`. -/
structure QuotEntry where
  id : String
  project_id : Option String
  name : String
  amount : ℚ
  status : String
  dateYear : Nat
  dateMonth : Nat
deriving DecidableEq

/-- `project.project_id || project.id.toString().split('_milestone_')[0]`. -/
def resolveProjectId (project : QuotEntry) : String :=
  match project.project_id with
  | some pid => pid
  | none => splitHead project.id "_milestone_"

/-- State of the quotation pass: the two seen-project-id sets and the amount
and count buckets for the viewed and previous month. -/
structure QuotState where
  projectsThisMonth : List String
  projectsLastMonth : List String
  thisQuotation : ℚ
  thisQuotationCount : Nat
  lastQuotation : ℚ
  lastQuotationCount : Nat
deriving DecidableEq

/-- One iteration of the quotation forEach: an entry is added to a month's
bucket only when its project id is not yet in that month's seen set. -/
def quotStep (nowYear nowMonth lastYear lastMonth : Nat) (st : QuotState)
    (project : QuotEntry) : QuotState :=
  let actualProjectId := resolveProjectId project
  let isThisMonth := project.dateYear == nowYear && project.dateMonth == nowMonth
  let isLastMonth := project.dateYear == lastYear && project.dateMonth == lastMonth
  if isThisMonth && !(st.projectsThisMonth.contains actualProjectId) then
    { st with
      thisQuotation := st.thisQuotation + project.amount
      thisQuotationCount := st.thisQuotationCount + 1
      projectsThisMonth := actualProjectId :: st.projectsThisMonth }
  else if isLastMonth && !(st.projectsLastMonth.contains actualProjectId) then
    { st with
      lastQuotation := st.lastQuotation + project.amount
      lastQuotationCount := st.lastQuotationCount + 1
      projectsLastMonth := actualProjectId :: st.projectsLastMonth }
  else st

/-- The quotation pass of `processAllTransactions` over the whole list. -/
def processQuotationsPass (nowYear nowMonth lastYear lastMonth : Nat)
    (quotations : List QuotEntry) : QuotState :=
  quotations.foldl (quotStep nowYear nowMonth lastYear lastMonth)
    { projectsThisMonth := [], projectsLastMonth := [], thisQuotation := 0,
      thisQuotationCount := 0, lastQuotation := 0, lastQuotationCount := 0 }

-- === CALENDAR DAY VIEW (js/transactions.js) ===

/-- The project fields read by `loadProjectData` and
`shouldShowAsPayable`. -/
structure Project where
  id : String
  name : String
  status : String
  total_amount : ℚ
  payment_schedule : Option PaymentSchedule
deriving DecidableEq

/-- An entry of `projectData.invoices` built by `loadProjectData`
(`projectRef` is the `_project` back-reference). -/
structure Invoice where
  id : String
  project_id : String
  name : String
  amount : ℚ
  due_date : Option String
  is_paid : Bool
  projectRef : Option Project
deriving DecidableEq

/-- `shouldShowAsPayable`: only invoice / partially_paid projects qualify; a
full schedule is payable unless completed; a staggered schedule (and a
missing or unknown schedule) is always payable. -/
def shouldShowAsPayable (project : Project) : Bool :=
  if !(["invoice", "partially_paid"].contains project.status) then false
  else
    match project.payment_schedule with
    | some (.full _ completed) => !completed
    | some (.staggered _) => true
    | _ => true

/-- The milestone loop of `loadProjectData`: one invoice entry per milestone,
paid or not, with the milestone amount and the actual payment status. -/
def milestoneInvoiceRows (project : Project) : Nat → List Milestone → List Invoice
  | _, [] => []
  | index, milestone :: rest =>
    { id := project.id ++ "_milestone_" ++ natStr index
      project_id := project.id
      name := project.name ++ " - " ++ (milestone.name.getD ("Milestone " ++ natStr (index + 1)))
      amount := project.total_amount * milestone.percentage / 100
      due_date := milestone.due_date
      is_paid := milestone.completed
      projectRef := some project } :: milestoneInvoiceRows project (index + 1) rest

/-- The invoice entries `loadProjectData` builds for one project: full
schedules give one entry, staggered schedules one entry per milestone (paid
and unpaid alike), other statuses or schedule shapes give none. -/
def invoicesOfProject (project : Project) : List Invoice :=
  if ["invoice", "partially_paid", "completed"].contains project.status then
    match project.payment_schedule with
    | some (.full due_date completed) =>
      [{ id := project.id, project_id := project.id, name := project.name,
         amount := project.total_amount, due_date := due_date, is_paid := completed,
         projectRef := some project }]
    | some (.staggered milestones) => milestoneInvoiceRows project 0 milestones
    | _ => []
  else []

/-- `getTransactionsForDate`: the transactions of the day whose title is not
the name of a paid invoice entry, and the invoice entries of the day that
pass `shouldShowAsPayable` on their project (falling back to the entry's own
unpaid flag when no project back-reference exists). -/
def getTransactionsForDate (allTransactions : List Txn) (invoices : List Invoice)
    (dateString : String) : List Txn × List Invoice :=
  let projectInvoices := invoices.filter (fun invoice =>
    (invoice.due_date == some dateString) &&
      (match invoice.projectRef with
       | some project => shouldShowAsPayable project
       | none => !invoice.is_paid))
  let paidInvoiceTitles := (invoices.filter (·.is_paid)).map (·.name)
  let filteredTransactions := allTransactions.filter (fun transaction =>
    transaction.date == dateString && !(paidInvoiceTitles.contains transaction.title))
  (filteredTransactions, projectInvoices)

-- === STATEMENT-SIDE DEFINITIONS (used to state the verified properties) ===

/-- The income records a staggered save creates, in creation order: one per
newly paid milestone. -/
def newlyPaidIncomes (today : String) (projectData : ProjectData)
    (oldMilestones : List Milestone) : Nat → List Milestone → List Txn
  | _, [] => []
  | index, newMilestone :: rest =>
    (if analyzeMilestoneStatusChange newMilestone oldMilestones[index]? = .NEWLY_PAID then
       [mkMilestoneIncome today projectData newMilestone index]
     else []) ++ newlyPaidIncomes today projectData oldMilestones (index + 1) rest

/-- A transaction carrying the description of the given 1-based milestone
number of the given project: the only per-milestone identifier an income
record carries. -/
def milestoneDescMatch (projectName : String) (milestoneNumber : Nat) (t : Txn) : Bool :=
  t.description == milestoneIncomeDesc projectName milestoneNumber

/-- Replays a sequence of project saves through the reconciliation engine:
each save compares against the previously stored version, which the save then
replaces (the refetch of `window.allProjects` after every save). -/
def runSaves (today : String) : ProjectData → List ProjectData → List Txn → List Txn
  | _, [], store => store
  | storedProject, save :: rest, store =>
    runSaves today save rest (handlePaymentStatusChanges today (some storedProject) save store)

/-- The stored completed flag of the 0-based milestone `i` (false when the
schedule is not staggered or has no such milestone). -/
def milestoneCompletedAt (p : ProjectData) (i : Nat) : Bool :=
  match p.payment_schedule with
  | .staggered ms =>
    match ms[i]? with
    | some m => m.completed
    | none => false
  | _ => false

def milestonesLen (p : ProjectData) : Nat :=
  match p.payment_schedule with
  | .staggered ms => ms.length
  | _ => 0

/-- A run of saves of one staggered project in which a completed milestone is
never unmarked: every save keeps the staggered type and the project name, and
every milestone completed in the stored version stays completed. -/
def monotoneStaggeredRun : ProjectData → List ProjectData → Bool
  | _, [] => true
  | stored, save :: rest =>
    save.payment_schedule.isStaggeredType && save.name == stored.name &&
      (List.range (milestonesLen stored)).all
        (fun i => !(milestoneCompletedAt stored i) || milestoneCompletedAt save i) &&
      monotoneStaggeredRun save rest

/-- A run of saves of one project whose schedule type stays full (the
completed flag may toggle freely). -/
def fullTypeRun : ProjectData → List ProjectData → Bool
  | _, [] => true
  | stored, save :: rest =>
    save.payment_schedule.isFullType && save.name == stored.name && fullTypeRun save rest

/-- Numeric value of a big-endian decimal digit character list (used to show
`natStr` is injective). -/
def digitsVal (l : List Char) : Nat :=
  l.foldl (fun acc c => acc * 10 + charVal c) 0

/-- Milestone `i` (absolute 0-based index) makes a newly-paid transition in
the suffix `ms` of the new milestone list that starts at absolute index
`k`. -/
def newlyPaidRelFrom (oldMilestones ms : List Milestone) (k i : Nat) : Bool :=
  decide (k ≤ i) &&
    (match ms[i - k]? with
     | some m => analyzeMilestoneStatusChange m oldMilestones[i]? == .NEWLY_PAID
     | none => false)

-- === HELPER LEMMAS ===

theorem charVal_digitChar (d : Nat) (hd : d < 10) : charVal (digitChar d) = d := by
  interval_cases d <;> rfl

theorem digitsVal_append_digit (l : List Char) (c : Char) :
    digitsVal (l ++ [c]) = digitsVal l * 10 + charVal c := by
  simp [digitsVal, List.foldl_append]

theorem digitsVal_natDigitsAux :
    ∀ fuel n : Nat, n ≤ fuel → digitsVal (natDigitsAux fuel n) = n := by
  intro fuel
  induction fuel with
  | zero => intro n hn; interval_cases n; rfl
  | succ fuel ih =>
    intro n hn
    by_cases h0 : n = 0
    · subst h0; rfl
    · have hdiv : n / 10 ≤ fuel := by omega
      have hmod : n % 10 < 10 := Nat.mod_lt _ (by norm_num)
      simp only [natDigitsAux, h0, if_false]
      rw [digitsVal_append_digit, ih _ hdiv, charVal_digitChar _ hmod]
      omega

theorem natStr_inj {m n : Nat} (h : natStr m = natStr n) : m = n := by
  have hdata := congrArg String.data h
  by_cases hm : m = 0 <;> by_cases hn : n = 0
  · omega
  · exfalso
    simp only [natStr, hm, hn, if_true, if_false] at hdata
    have hv := congrArg digitsVal hdata
    rw [digitsVal_natDigitsAux (n + 1) n (by omega)] at hv
    rw [show digitsVal ['0'] = 0 from rfl] at hv
    omega
  · exfalso
    simp only [natStr, hm, hn, if_true, if_false] at hdata
    have hv := congrArg digitsVal hdata
    rw [digitsVal_natDigitsAux (m + 1) m (by omega)] at hv
    rw [show digitsVal ['0'] = 0 from rfl] at hv
    omega
  · simp only [natStr, hm, hn, if_false] at hdata
    have hv := congrArg digitsVal hdata
    rw [digitsVal_natDigitsAux (m + 1) m (by omega),
        digitsVal_natDigitsAux (n + 1) n (by omega)] at hv
    exact hv

theorem string_eq_of_data {a b : String} (h : a.data = b.data) : a = b :=
  congrArg String.mk h

theorem milestoneIncomeDesc_inj {name : String} {a b : Nat}
    (h : milestoneIncomeDesc name a = milestoneIncomeDesc name b) : a = b := by
  have hd := congrArg String.data h
  simp only [milestoneIncomeDesc, String.data_append, List.append_assoc] at hd
  have hd2 := List.append_cancel_left hd
  have hd3 := List.append_cancel_left hd2
  have hd4 := List.append_cancel_left hd3
  have hd5 := congrArg List.dropLast hd4
  simp only [List.dropLast_concat] at hd5
  exact natStr_inj (string_eq_of_data hd5)

theorem milestoneTitle_ne_fullTitle (a b : String) :
    milestoneIncomeTitle a ≠ fullIncomeTitle b := by
  intro h
  have hd := congrArg (fun s => s.data.head?) h
  rw [show (fun s : String => s.data.head?) (milestoneIncomeTitle a) = some 'M' from rfl,
      show (fun s : String => s.data.head?) (fullIncomeTitle b) = some 'P' from rfl] at hd
  exact absurd hd (by decide)

theorem removeFirstMatch_of_none {α : Type} (p : α → Bool) :
    ∀ l : List α, (∀ t ∈ l, p t = false) → removeFirstMatch p l = l := by
  intro l
  induction l with
  | nil => intro _; rfl
  | cons t ts ih =>
    intro h
    have ht : p t = false := h t (List.mem_cons_self t ts)
    simp only [removeFirstMatch, ht, if_false, Bool.false_eq_true]
    rw [ih (fun u hu => h u (List.mem_cons_of_mem t hu))]

theorem removeFirstMatch_first {α : Type} (p : α → Bool) :
    ∀ (s1 : List α) (t : α) (s2 : List α), p t = true → (∀ u ∈ s1, p u = false) →
      removeFirstMatch p (s1 ++ t :: s2) = s1 ++ s2 := by
  intro s1
  induction s1 with
  | nil =>
    intro t s2 ht _
    simp [removeFirstMatch, ht]
  | cons u s1 ih =>
    intro t s2 ht h
    have hu : p u = false := h u (List.mem_cons_self u s1)
    rw [show (u :: s1) ++ t :: s2 = u :: (s1 ++ t :: s2) from rfl]
    simp only [removeFirstMatch, hu, if_false, Bool.false_eq_true]
    rw [ih t s2 ht (fun v hv => h v (List.mem_cons_of_mem u hv))]
    rfl

theorem countP_removeFirstMatch {α : Type} (p : α → Bool) :
    ∀ l : List α, List.countP p (removeFirstMatch p l) = List.countP p l - 1 := by
  intro l
  induction l with
  | nil => rfl
  | cons t ts ih =>
    by_cases ht : p t = true
    · simp [removeFirstMatch, ht, List.countP_cons]
    · have ht' : p t = false := by simp at ht; exact ht
      simp only [removeFirstMatch, ht', if_false, Bool.false_eq_true]
      rw [List.countP_cons, List.countP_cons, ih]
      simp [ht']

theorem removeFirstMatch_congr {α : Type} (p q : α → Bool) :
    ∀ l : List α, (∀ t ∈ l, p t = q t) → removeFirstMatch p l = removeFirstMatch q l := by
  intro l
  induction l with
  | nil => intro _; rfl
  | cons t ts ih =>
    intro h
    have ht : p t = q t := h t (List.mem_cons_self t ts)
    simp only [removeFirstMatch, ht]
    rw [ih (fun u hu => h u (List.mem_cons_of_mem t hu))]

theorem removeFirstMatch_sublist {α : Type} (p : α → Bool) :
    ∀ l : List α, (removeFirstMatch p l).Sublist l := by
  intro l
  induction l with
  | nil => exact List.Sublist.refl _
  | cons t ts ih =>
    by_cases ht : p t = true
    · simp only [removeFirstMatch, ht, if_true]
      exact List.sublist_cons_self t ts
    · have ht' : p t = false := by simp at ht; exact ht
      simp only [removeFirstMatch, ht', if_false, Bool.false_eq_true]
      exact List.Sublist.cons₂ t ih

theorem removeFirstMatch_length {α : Type} (p : α → Bool) :
    ∀ l : List α, l.length ≤ (removeFirstMatch p l).length + 1 := by
  intro l
  induction l with
  | nil => simp
  | cons t ts ih =>
    by_cases ht : p t = true
    · simp [removeFirstMatch, ht]
    · have ht' : p t = false := by simp at ht; exact ht
      simp only [removeFirstMatch, ht', if_false, Bool.false_eq_true, List.length_cons]
      omega

theorem mem_removeFirstMatch {α : Type} (p : α → Bool) (l : List α) {t : α}
    (h : t ∈ removeFirstMatch p l) : t ∈ l :=
  (removeFirstMatch_sublist p l).mem h

theorem analyze_NEWLY_PAID_iff (nm : Milestone) (om : Option Milestone) :
    analyzeMilestoneStatusChange nm om = .NEWLY_PAID ↔
      (nm.completed = true ∧ (om.map (·.completed)).getD false = false) := by
  cases hcn : nm.completed <;> cases hco : (om.map (·.completed)).getD false <;>
    simp [analyzeMilestoneStatusChange, hcn, hco]

theorem analyze_UNPAID_iff (nm : Milestone) (om : Option Milestone) :
    analyzeMilestoneStatusChange nm om = .UNPAID ↔
      (nm.completed = false ∧ (om.map (·.completed)).getD false = true) := by
  cases hcn : nm.completed <;> cases hco : (om.map (·.completed)).getD false <;>
    simp [analyzeMilestoneStatusChange, hcn, hco]

theorem handleStaggeredFrom_no_unpaid (today : String) (proj : ProjectData)
    (oldMs : List Milestone) :
    ∀ (ms : List Milestone) (k : Nat) (store : List Txn),
      (∀ (j : Nat) (m : Milestone), ms[j]? = some m →
        analyzeMilestoneStatusChange m oldMs[k + j]? ≠ .UNPAID) →
      handleStaggeredFrom today proj oldMs k store ms
        = store ++ newlyPaidIncomes today proj oldMs k ms := by
  intro ms
  induction ms with
  | nil => intro k store _; simp [handleStaggeredFrom, newlyPaidIncomes]
  | cons m rest ih =>
    intro k store h
    have hshift : ∀ (j : Nat) (m' : Milestone), rest[j]? = some m' →
        analyzeMilestoneStatusChange m' oldMs[(k + 1) + j]? ≠ .UNPAID := by
      intro j m' hj
      have := h (j + 1) m' (by simpa using hj)
      rwa [show k + (j + 1) = (k + 1) + j by omega] at this
    have h0 := h 0 m (by simp)
    rw [show k + 0 = k by omega] at h0
    cases hA : analyzeMilestoneStatusChange m oldMs[k]? with
    | NEWLY_PAID =>
      simp only [handleStaggeredFrom, newlyPaidIncomes, hA, if_true,
        createMilestoneIncome]
      rw [ih (k + 1) (store ++ [mkMilestoneIncome today proj m k]) hshift]
      simp
    | UNPAID => exact absurd hA h0
    | NO_CHANGE =>
      simp only [handleStaggeredFrom, newlyPaidIncomes, hA]
      rw [ih (k + 1) store hshift]
      simp

theorem mem_newlyPaidIncomes (today : String) (proj : ProjectData)
    (oldMs : List Milestone) :
    ∀ (ms : List Milestone) (k : Nat) (t : Txn),
      t ∈ newlyPaidIncomes today proj oldMs k ms →
      ∃ (j : Nat) (m : Milestone), ms[j]? = some m ∧
        analyzeMilestoneStatusChange m oldMs[k + j]? = .NEWLY_PAID ∧
        t = mkMilestoneIncome today proj m (k + j) := by
  intro ms
  induction ms with
  | nil => intro k t ht; simp [newlyPaidIncomes] at ht
  | cons m rest ih =>
    intro k t ht
    simp only [newlyPaidIncomes] at ht
    rcases List.mem_append.mp ht with hhead | htail
    · cases hA : analyzeMilestoneStatusChange m oldMs[k]? with
      | NEWLY_PAID =>
        rw [hA] at hhead
        simp at hhead
        exact ⟨0, m, by simp, by rw [show k + 0 = k by omega]; exact hA,
          by rw [show k + 0 = k by omega]; exact hhead⟩
      | UNPAID => rw [hA] at hhead; simp at hhead
      | NO_CHANGE => rw [hA] at hhead; simp at hhead
    · obtain ⟨j, m', hj, hA, heq⟩ := ih (k + 1) t htail
      refine ⟨j + 1, m', by simpa using hj, ?_, ?_⟩
      · rwa [show k + (j + 1) = (k + 1) + j by omega]
      · rwa [show k + (j + 1) = (k + 1) + j by omega]

theorem milestoneDescMatch_mkMilestoneIncome (proj : ProjectData) (today : String)
    (m : Milestone) (a b : Nat) :
    milestoneDescMatch proj.name (a + 1) (mkMilestoneIncome today proj m b)
      = (a == b) := by
  by_cases hab : a = b
  · subst hab
    simp [milestoneDescMatch, mkMilestoneIncome]
  · have hL : (milestoneIncomeDesc proj.name (b + 1) == milestoneIncomeDesc proj.name (a + 1))
        = false := by
      apply beq_eq_false_iff_ne.mpr
      intro hcontra
      have := milestoneIncomeDesc_inj hcontra
      omega
    have hR : ((a == b) : Bool) = false := by
      apply beq_eq_false_iff_ne.mpr
      exact hab
    simp only [milestoneDescMatch, mkMilestoneIncome, hL, hR]

theorem countP_newlyPaidIncomes (today : String) (proj : ProjectData)
    (oldMs : List Milestone) (i : Nat) :
    ∀ (ms : List Milestone) (k : Nat),
      List.countP (milestoneDescMatch proj.name (i + 1))
          (newlyPaidIncomes today proj oldMs k ms)
        = if newlyPaidRelFrom oldMs ms k i = true then 1 else 0 := by
  intro ms
  induction ms with
  | nil =>
    intro k
    simp [newlyPaidIncomes, newlyPaidRelFrom]
  | cons m rest ih =>
    intro k
    simp only [newlyPaidIncomes, List.countP_append]
    rw [ih (k + 1)]
    by_cases hik : k = i
    · subst hik
      have htail : newlyPaidRelFrom oldMs rest (k + 1) k = false := by
        simp [newlyPaidRelFrom]
      rw [htail]
      have hhead0 : (k : Nat) - k = 0 := by omega
      cases hA : analyzeMilestoneStatusChange m oldMs[k]? with
      | NEWLY_PAID =>
        have hrel : newlyPaidRelFrom oldMs (m :: rest) k k = true := by
          simp [newlyPaidRelFrom, hhead0, hA]
        rw [hrel]
        simp [List.countP_cons, milestoneDescMatch_mkMilestoneIncome]
      | UNPAID =>
        have hrel : newlyPaidRelFrom oldMs (m :: rest) k k = false := by
          simp [newlyPaidRelFrom, hhead0, hA]
        rw [hrel]
        simp
      | NO_CHANGE =>
        have hrel : newlyPaidRelFrom oldMs (m :: rest) k k = false := by
          simp [newlyPaidRelFrom, hhead0, hA]
        rw [hrel]
        simp
    · have hhead : List.countP (milestoneDescMatch proj.name (i + 1))
          (if analyzeMilestoneStatusChange m oldMs[k]? = .NEWLY_PAID then
            [mkMilestoneIncome today proj m k] else []) = 0 := by
        cases hA : analyzeMilestoneStatusChange m oldMs[k]? with
        | NEWLY_PAID =>
          simp only [if_true, List.countP_cons, List.countP_nil,
            milestoneDescMatch_mkMilestoneIncome]
          have : ((i == k) : Bool) = false := by
            apply beq_eq_false_iff_ne.mpr
            omega
          simp [this]
        | UNPAID => simp
        | NO_CHANGE => simp
      rw [hhead]
      by_cases hki : k ≤ i
      · have hsucc : k + 1 ≤ i := by omega
        have hidx : i - k = (i - (k + 1)) + 1 := by omega
        have heq : newlyPaidRelFrom oldMs (m :: rest) k i
            = newlyPaidRelFrom oldMs rest (k + 1) i := by
          simp only [newlyPaidRelFrom, hidx, List.getElem?_cons_succ]
          simp [hki, hsucc]
        rw [heq]
        simp
      · have h1 : newlyPaidRelFrom oldMs (m :: rest) k i = false := by
          simp [newlyPaidRelFrom, hki]
        have h2 : newlyPaidRelFrom oldMs rest (k + 1) i = false := by
          have hk1 : ¬(k + 1 ≤ i) := by omega
          simp [newlyPaidRelFrom, hk1]
        rw [h1, h2]
        simp

-- === CLAIM C1 ===

/-- C1 counterexample: the per-save creation guarantee fails as stated on
saves that also unmark a milestone.  Project P (total 1000, two 50 percent
milestones) is saved marking milestone 1 (a false-to-true transition, as the
first conjunct checks) while unmarking milestone 2, starting from an empty
store: milestone 1's income record is created and then deleted by milestone
2's removal, whose find matches the shared title first, so the save ends with
an empty store and no income record for the newly paid milestone exists. -/
theorem C1_counterexample_mixed_save :
    analyzeMilestoneStatusChange (⟨50, none, true, none⟩ : Milestone)
        (some (⟨50, none, false, none⟩ : Milestone)) = .NEWLY_PAID
    ∧ handlePaymentStatusChanges "2025-08-01"
        (some ⟨"P", "c", 1000,
          .staggered [⟨50, none, false, none⟩, ⟨50, none, true, none⟩]⟩)
        ⟨"P", "c", 1000,
          .staggered [⟨50, none, true, none⟩, ⟨50, none, false, none⟩]⟩
        [] = [] := by
  constructor
  · decide
  · decide

/-- C1 (amended): on a save of a staggered project whose previous version is
also staggered and in which no milestone is unmarked — the restriction the
counterexample forces, since a simultaneous unmark can delete the record just
created — every milestone whose completed flag turns from false (or absent)
to true causes exactly one income record to be created: the save appends
exactly the newly-paid income records, exactly one of them carries the
milestone's description, and that record has amount total_amount times
percentage over 100, date equal to the milestone's due date (today when
absent) and the title Milestone payment from the project name. -/
theorem C1_milestone_income_creation
    (today : String) (proj origProj : ProjectData) (newMs oldMs : List Milestone)
    (store : List Txn) (i : Nat) (m : Milestone)
    (hps : proj.payment_schedule = .staggered newMs)
    (hos : origProj.payment_schedule = .staggered oldMs)
    (hnoUnmark : ∀ (j : Nat) (mj : Milestone), newMs[j]? = some mj →
      analyzeMilestoneStatusChange mj oldMs[j]? ≠ .UNPAID)
    (hm : newMs[i]? = some m)
    (hnew : m.completed = true)
    (hold : ((oldMs[i]?).map (·.completed)).getD false = false) :
    handlePaymentStatusChanges today (some origProj) proj store
        = store ++ newlyPaidIncomes today proj oldMs 0 newMs
    ∧ List.countP (milestoneDescMatch proj.name (i + 1))
        (newlyPaidIncomes today proj oldMs 0 newMs) = 1
    ∧ ∀ t ∈ newlyPaidIncomes today proj oldMs 0 newMs,
        milestoneDescMatch proj.name (i + 1) t = true →
          t = { date := m.due_date.getD today, type := "income",
                title := milestoneIncomeTitle proj.name,
                description := milestoneIncomeDesc proj.name (i + 1),
                amount := proj.total_amount * m.percentage / 100 } := by
  refine ⟨?_, ?_, ?_⟩
  · have hroute : handlePaymentStatusChanges today (some origProj) proj store
        = handleStaggeredFrom today proj oldMs 0 store newMs := by
      simp [handlePaymentStatusChanges, hps, hos, PaymentSchedule.isStaggeredType,
        handleStaggeredPaymentChanges, PaymentSchedule.milestonesOf]
    rw [hroute]
    exact handleStaggeredFrom_no_unpaid today proj oldMs newMs 0 store
      (fun j mj hj => by rw [Nat.zero_add]; exact hnoUnmark j mj hj)
  · rw [countP_newlyPaidIncomes today proj oldMs i newMs 0]
    have hrel : newlyPaidRelFrom oldMs newMs 0 i = true := by
      have hA : analyzeMilestoneStatusChange m oldMs[i]? = .NEWLY_PAID :=
        (analyze_NEWLY_PAID_iff m oldMs[i]?).mpr ⟨hnew, hold⟩
      simp [newlyPaidRelFrom, hm, hA]
    rw [hrel]
    simp
  · intro t ht hdesc
    obtain ⟨j, mj, hj, hA, heq⟩ := mem_newlyPaidIncomes today proj oldMs newMs 0 t ht
    rw [Nat.zero_add] at hA heq
    subst heq
    rw [milestoneDescMatch_mkMilestoneIncome] at hdesc
    have hij : i = j := by
      have := beq_iff_eq.mp hdesc
      exact this
    subst hij
    rw [hm] at hj
    have hmj : m = mj := by injection hj
    subst hmj
    rfl

/-- Witness for C1: the spec's own example scenario, a project of
total_amount 1000 with two 50 percent milestones, marking the first milestone
completed. -/
theorem C1_milestone_income_creation_witness :
    handlePaymentStatusChanges "2025-08-01"
        (some ⟨"Alpha", "Bob", 1000,
          .staggered [⟨50, none, false, none⟩, ⟨50, none, false, none⟩]⟩)
        ⟨"Alpha", "Bob", 1000,
          .staggered [⟨50, none, true, none⟩, ⟨50, none, false, none⟩]⟩ []
        = [] ++ newlyPaidIncomes "2025-08-01"
            ⟨"Alpha", "Bob", 1000,
              .staggered [⟨50, none, true, none⟩, ⟨50, none, false, none⟩]⟩
            [⟨50, none, false, none⟩, ⟨50, none, false, none⟩] 0
            [⟨50, none, true, none⟩, ⟨50, none, false, none⟩]
    ∧ List.countP (milestoneDescMatch "Alpha" (0 + 1))
        (newlyPaidIncomes "2025-08-01"
          ⟨"Alpha", "Bob", 1000,
            .staggered [⟨50, none, true, none⟩, ⟨50, none, false, none⟩]⟩
          [⟨50, none, false, none⟩, ⟨50, none, false, none⟩] 0
          [⟨50, none, true, none⟩, ⟨50, none, false, none⟩]) = 1
    ∧ ∀ t ∈ newlyPaidIncomes "2025-08-01"
          ⟨"Alpha", "Bob", 1000,
            .staggered [⟨50, none, true, none⟩, ⟨50, none, false, none⟩]⟩
          [⟨50, none, false, none⟩, ⟨50, none, false, none⟩] 0
          [⟨50, none, true, none⟩, ⟨50, none, false, none⟩],
        milestoneDescMatch "Alpha" (0 + 1) t = true →
          t = { date := (none : Option String).getD "2025-08-01", type := "income",
                title := milestoneIncomeTitle "Alpha",
                description := milestoneIncomeDesc "Alpha" (0 + 1),
                amount := (1000 : ℚ) * 50 / 100 } := by
  exact C1_milestone_income_creation "2025-08-01"
    ⟨"Alpha", "Bob", 1000, .staggered [⟨50, none, true, none⟩, ⟨50, none, false, none⟩]⟩
    ⟨"Alpha", "Bob", 1000, .staggered [⟨50, none, false, none⟩, ⟨50, none, false, none⟩]⟩
    [⟨50, none, true, none⟩, ⟨50, none, false, none⟩]
    [⟨50, none, false, none⟩, ⟨50, none, false, none⟩]
    [] 0 ⟨50, none, true, none⟩ rfl rfl
    (by
      intro j mj hj
      have hjlt : j < 2 := by
        by_contra hge
        push_neg at hge
        rw [List.getElem?_eq_none (by simpa using hge)] at hj
        exact absurd hj (by simp)
      interval_cases j <;>
        (simp only [List.getElem?_cons_zero, List.getElem?_cons_succ,
          Option.some.injEq] at hj; subst hj; decide))
    rfl rfl rfl

-- === CLAIM C2 ===

/-- C2: on a save of a full-payment schedule with a previous version,
toggling completed from false to true appends exactly one income record with
amount total_amount, title Project Payment with the project name, dated at the
schedule due date (today when absent); toggling from true to false deletes the
first existing income record with that title when one exists and creates
nothing, and leaves the store unchanged when none exists. -/
theorem C2_full_payment_toggle
    (today : String) (proj origProj : ProjectData) (store : List Txn)
    (d dOld : Option String) :
    (proj.payment_schedule = .full d true →
      origProj.payment_schedule.completedFlag = false →
      handlePaymentStatusChanges today (some origProj) proj store
        = store ++ [{ date := d.getD today, type := "income",
                      title := fullIncomeTitle proj.name,
                      description := "Full payment from " ++ proj.contactName,
                      amount := proj.total_amount }])
    ∧ (proj.payment_schedule = .full d false →
      origProj.payment_schedule = .full dOld true →
      ∀ (s1 : List Txn) (t : Txn) (s2 : List Txn), store = s1 ++ t :: s2 →
        fullIncomePred proj.name t = true →
        (∀ u ∈ s1, fullIncomePred proj.name u = false) →
        handlePaymentStatusChanges today (some origProj) proj store = s1 ++ s2)
    ∧ (proj.payment_schedule = .full d false →
      origProj.payment_schedule = .full dOld true →
      (∀ u ∈ store, fullIncomePred proj.name u = false) →
      handlePaymentStatusChanges today (some origProj) proj store = store) := by
  refine ⟨?_, ?_, ?_⟩
  · intro hps hwas
    have hroute : handlePaymentStatusChanges today (some origProj) proj store
        = handleFullPaymentChanges today proj (.full d true)
            origProj.payment_schedule store := by
      simp [handlePaymentStatusChanges, hps, PaymentSchedule.isStaggeredType,
        PaymentSchedule.isFullType]
    rw [hroute]
    cases horig : origProj.payment_schedule with
    | full dd cc =>
      rw [horig] at hwas
      simp only [PaymentSchedule.completedFlag] at hwas
      subst hwas
      simp [handleFullPaymentChanges, PaymentSchedule.completedFlag,
        createFullPaymentIncome, mkFullPaymentIncome, PaymentSchedule.dueDate]
    | staggered ms =>
      simp [handleFullPaymentChanges, PaymentSchedule.completedFlag,
        createFullPaymentIncome, mkFullPaymentIncome, PaymentSchedule.dueDate]
    | other =>
      simp [handleFullPaymentChanges, PaymentSchedule.completedFlag,
        createFullPaymentIncome, mkFullPaymentIncome, PaymentSchedule.dueDate]
  · intro hps hos s1 t s2 hstore ht hs1
    have hroute : handlePaymentStatusChanges today (some origProj) proj store
        = removeFirstMatch (fullIncomePred proj.name) store := by
      simp [handlePaymentStatusChanges, hps, hos, PaymentSchedule.isStaggeredType,
        PaymentSchedule.isFullType, handleFullPaymentChanges,
        PaymentSchedule.completedFlag, removeFullPaymentIncome]
    rw [hroute, hstore]
    exact removeFirstMatch_first (fullIncomePred proj.name) s1 t s2 ht hs1
  · intro hps hos hnone
    have hroute : handlePaymentStatusChanges today (some origProj) proj store
        = removeFirstMatch (fullIncomePred proj.name) store := by
      simp [handlePaymentStatusChanges, hps, hos, PaymentSchedule.isStaggeredType,
        PaymentSchedule.isFullType, handleFullPaymentChanges,
        PaymentSchedule.completedFlag, removeFullPaymentIncome]
    rw [hroute]
    exact removeFirstMatch_of_none (fullIncomePred proj.name) store hnone

/-- Witness for C2: a 750 project marked paid creates the single full-payment
record; unmarking it with that record (behind one unrelated expense row)
in the store deletes exactly that record; unmarking with no matching record
changes nothing. -/
theorem C2_full_payment_toggle_witness :
    handlePaymentStatusChanges "2025-03-05"
        (some ⟨"Gamma", "Carol", 750, .full (some "2025-03-01") false⟩)
        ⟨"Gamma", "Carol", 750, .full (some "2025-03-01") true⟩ []
      = [] ++ [{ date := (some "2025-03-01").getD "2025-03-05", type := "income",
                 title := fullIncomeTitle "Gamma",
                 description := "Full payment from " ++ "Carol",
                 amount := (750 : ℚ) }]
    ∧ handlePaymentStatusChanges "2025-03-05"
        (some ⟨"Gamma", "Carol", 750, .full (some "2025-03-01") true⟩)
        ⟨"Gamma", "Carol", 750, .full (some "2025-03-01") false⟩
        [⟨"2025-03-02", "expense", "Rent", "", 10⟩,
         ⟨"2025-03-01", "income", "Project Payment: Gamma", "Full payment from Carol", 750⟩]
      = [⟨"2025-03-02", "expense", "Rent", "", 10⟩] ++ []
    ∧ handlePaymentStatusChanges "2025-03-05"
        (some ⟨"Gamma", "Carol", 750, .full (some "2025-03-01") true⟩)
        ⟨"Gamma", "Carol", 750, .full (some "2025-03-01") false⟩
        [⟨"2025-03-02", "expense", "Rent", "", 10⟩]
      = [⟨"2025-03-02", "expense", "Rent", "", 10⟩] := by
  refine ⟨?_, ?_, ?_⟩
  · exact (C2_full_payment_toggle "2025-03-05"
      ⟨"Gamma", "Carol", 750, .full (some "2025-03-01") true⟩
      ⟨"Gamma", "Carol", 750, .full (some "2025-03-01") false⟩
      [] (some "2025-03-01") (some "2025-03-01")).1 rfl rfl
  · exact (C2_full_payment_toggle "2025-03-05"
      ⟨"Gamma", "Carol", 750, .full (some "2025-03-01") false⟩
      ⟨"Gamma", "Carol", 750, .full (some "2025-03-01") true⟩
      [⟨"2025-03-02", "expense", "Rent", "", 10⟩,
       ⟨"2025-03-01", "income", "Project Payment: Gamma", "Full payment from Carol", 750⟩]
      (some "2025-03-01") (some "2025-03-01")).2.1 rfl rfl
      [⟨"2025-03-02", "expense", "Rent", "", 10⟩]
      ⟨"2025-03-01", "income", "Project Payment: Gamma", "Full payment from Carol", 750⟩
      [] rfl (by decide) (by decide)
  · exact (C2_full_payment_toggle "2025-03-05"
      ⟨"Gamma", "Carol", 750, .full (some "2025-03-01") false⟩
      ⟨"Gamma", "Carol", 750, .full (some "2025-03-01") true⟩
      [⟨"2025-03-02", "expense", "Rent", "", 10⟩]
      (some "2025-03-01") (some "2025-03-01")).2.2 rfl rfl (by decide)

-- === CLAIM C10 ===

/-- C10: the payment handler leaves the transaction store unchanged when no
original project is found, when the new schedule is staggered but the old one
is not, and when the new schedule type is neither staggered nor full — even if
milestones are newly marked completed in that save. -/
theorem C10_frame_no_route
    (today : String) (newProjectData : ProjectData) (store : List Txn) :
    handlePaymentStatusChanges today none newProjectData store = store
    ∧ (∀ origProj : ProjectData,
        newProjectData.payment_schedule.isStaggeredType = true →
        origProj.payment_schedule.isStaggeredType = false →
        handlePaymentStatusChanges today (some origProj) newProjectData store = store)
    ∧ (∀ origProj : ProjectData,
        newProjectData.payment_schedule.isStaggeredType = false →
        newProjectData.payment_schedule.isFullType = false →
        handlePaymentStatusChanges today (some origProj) newProjectData store = store) := by
  refine ⟨rfl, ?_, ?_⟩
  · intro origProj hnew hold
    have hfull : newProjectData.payment_schedule.isFullType = false := by
      cases hsch : newProjectData.payment_schedule <;>
        simp_all [PaymentSchedule.isStaggeredType, PaymentSchedule.isFullType]
    simp [handlePaymentStatusChanges, hnew, hold, hfull]
  · intro origProj hnew hfull
    simp [handlePaymentStatusChanges, hnew, hfull]

/-- Witness for C10: a staggered save over a previously full schedule with a
newly completed milestone creates nothing, and a legacy-shape schedule save
creates nothing. -/
theorem C10_frame_no_route_witness :
    handlePaymentStatusChanges "2025-01-01" none
        ⟨"Delta", "Dan", 400, .staggered [⟨100, none, true, none⟩]⟩ [] = []
    ∧ handlePaymentStatusChanges "2025-01-01"
        (some ⟨"Delta", "Dan", 400, .full none false⟩)
        ⟨"Delta", "Dan", 400, .staggered [⟨100, none, true, none⟩]⟩ [] = []
    ∧ handlePaymentStatusChanges "2025-01-01"
        (some ⟨"Delta", "Dan", 400, .full none false⟩)
        ⟨"Delta", "Dan", 400, .other⟩ [] = [] := by
  refine ⟨?_, ?_, ?_⟩
  · exact (C10_frame_no_route "2025-01-01"
      ⟨"Delta", "Dan", 400, .staggered [⟨100, none, true, none⟩]⟩ []).1
  · exact (C10_frame_no_route "2025-01-01"
      ⟨"Delta", "Dan", 400, .staggered [⟨100, none, true, none⟩]⟩ []).2.1
      ⟨"Delta", "Dan", 400, .full none false⟩ rfl rfl
  · exact (C10_frame_no_route "2025-01-01"
      ⟨"Delta", "Dan", 400, .other⟩ []).2.2
      ⟨"Delta", "Dan", 400, .full none false⟩ rfl rfl

-- === CLAIM C9 ===

/-- C9: removeMilestoneIncome deletes at most one transaction, namely the
first income transaction whose title is the project's shared milestone title
or whose description names the given milestone number; and since the title
test ignores the milestone number, whenever every income record in the store
carries the shared title the deleted record is determined purely by list
position, identically for every milestone number. -/
theorem C9_remove_first_by_position
    (projectName : String) (n : Nat) (store : List Txn) :
    (removeMilestoneIncome projectName n store).Sublist store
    ∧ store.length ≤ (removeMilestoneIncome projectName n store).length + 1
    ∧ ((∀ t ∈ store, milestoneIncomePred projectName n t = false) →
        removeMilestoneIncome projectName n store = store)
    ∧ (∀ (s1 : List Txn) (t : Txn) (s2 : List Txn), store = s1 ++ t :: s2 →
        milestoneIncomePred projectName n t = true →
        (∀ u ∈ s1, milestoneIncomePred projectName n u = false) →
        removeMilestoneIncome projectName n store = s1 ++ s2)
    ∧ ((∀ t ∈ store, t.type = "income" → t.title = milestoneIncomeTitle projectName) →
        ∀ m : Nat, removeMilestoneIncome projectName n store
          = removeMilestoneIncome projectName m store) := by
  refine ⟨removeFirstMatch_sublist _ store, removeFirstMatch_length _ store, ?_, ?_, ?_⟩
  · exact removeFirstMatch_of_none _ store
  · intro s1 t s2 hstore ht hs1
    rw [removeMilestoneIncome, hstore]
    exact removeFirstMatch_first _ s1 t s2 ht hs1
  · intro hall m
    apply removeFirstMatch_congr
    intro t htmem
    by_cases hty : t.type = "income"
    · have htitle := hall t htmem hty
      simp [milestoneIncomePred, hty, htitle]
    · have hbeq : (t.type == "income") = false := beq_eq_false_iff_ne.mpr hty
      simp [milestoneIncomePred, hbeq]

/-- Witness for C9: with the milestone-2 record stored before the milestone-1
record, removing milestone 1 deletes the milestone-2 record (first by
position), and the removal result is the same for milestone numbers 1
and 2. -/
theorem C9_remove_first_by_position_witness :
    removeMilestoneIncome "P" 1
        [⟨"2025-01-02", "income", "Milestone payment from P",
           "Milestone payment for P (Milestone 2)", 50⟩,
         ⟨"2025-01-03", "income", "Milestone payment from P",
           "Milestone payment for P (Milestone 1)", 50⟩]
      = [] ++ [⟨"2025-01-03", "income", "Milestone payment from P",
                 "Milestone payment for P (Milestone 1)", 50⟩]
    ∧ removeMilestoneIncome "P" 1
        [⟨"2025-01-02", "income", "Milestone payment from P",
           "Milestone payment for P (Milestone 2)", 50⟩,
         ⟨"2025-01-03", "income", "Milestone payment from P",
           "Milestone payment for P (Milestone 1)", 50⟩]
      = removeMilestoneIncome "P" 2
        [⟨"2025-01-02", "income", "Milestone payment from P",
           "Milestone payment for P (Milestone 2)", 50⟩,
         ⟨"2025-01-03", "income", "Milestone payment from P",
           "Milestone payment for P (Milestone 1)", 50⟩] := by
  constructor
  · exact (C9_remove_first_by_position "P" 1
      [⟨"2025-01-02", "income", "Milestone payment from P",
         "Milestone payment for P (Milestone 2)", 50⟩,
       ⟨"2025-01-03", "income", "Milestone payment from P",
         "Milestone payment for P (Milestone 1)", 50⟩]).2.2.2.1
      []
      ⟨"2025-01-02", "income", "Milestone payment from P",
        "Milestone payment for P (Milestone 2)", 50⟩
      [⟨"2025-01-03", "income", "Milestone payment from P",
         "Milestone payment for P (Milestone 1)", 50⟩]
      rfl (by decide) (by decide)
  · exact (C9_remove_first_by_position "P" 1
      [⟨"2025-01-02", "income", "Milestone payment from P",
         "Milestone payment for P (Milestone 2)", 50⟩,
       ⟨"2025-01-03", "income", "Milestone payment from P",
         "Milestone payment for P (Milestone 1)", 50⟩]).2.2.2.2
      (by decide) 2

-- === CLAIM C4 (helper lemmas) ===

theorem newlyPaidIncomes_amount_sum (today : String) (proj : ProjectData)
    (oldMs : List Milestone) (holdall : ∀ mo ∈ oldMs, mo.completed = false) :
    ∀ (ms : List Milestone) (k : Nat), (∀ mj ∈ ms, mj.completed = true) →
      ((newlyPaidIncomes today proj oldMs k ms).map (·.amount)).sum
        = proj.total_amount * ((ms.map (·.percentage)).sum) / 100 := by
  intro ms
  induction ms with
  | nil => intro k _; simp [newlyPaidIncomes]
  | cons m rest ih =>
    intro k hall
    have hmc : m.completed = true := hall m (List.mem_cons_self m rest)
    have holdk : ((oldMs[k]?).map (·.completed)).getD false = false := by
      cases hk : oldMs[k]? with
      | none => rfl
      | some mo =>
        have hget : oldMs.get? k = some mo := by simpa using hk
        have hmem : mo ∈ oldMs := List.get?_mem hget
        simp [holdall mo hmem]
    have hA : analyzeMilestoneStatusChange m oldMs[k]? = .NEWLY_PAID :=
      (analyze_NEWLY_PAID_iff m oldMs[k]?).mpr ⟨hmc, holdk⟩
    simp only [newlyPaidIncomes, hA, if_true, List.map_append, List.sum_append,
      List.map_cons, List.sum_cons, List.map_nil, List.sum_nil]
    rw [ih (k + 1) (fun mj hmj => hall mj (List.mem_cons_of_mem m hmj))]
    simp only [mkMilestoneIncome]
    ring

theorem mem_handleStaggeredFrom (today : String) (proj : ProjectData)
    (oldMs : List Milestone) :
    ∀ (ms : List Milestone) (k : Nat) (store : List Txn) (t : Txn),
      t ∈ handleStaggeredFrom today proj oldMs k store ms →
      t ∈ store ∨ t.title = milestoneIncomeTitle proj.name := by
  intro ms
  induction ms with
  | nil => intro k store t ht; exact Or.inl ht
  | cons m rest ih =>
    intro k store t ht
    simp only [handleStaggeredFrom] at ht
    cases hA : analyzeMilestoneStatusChange m oldMs[k]? with
    | NEWLY_PAID =>
      rw [hA] at ht
      rcases ih (k + 1) _ t ht with hin | htitle
      · simp only [createMilestoneIncome] at hin
        rcases List.mem_append.mp hin with hs | hnew
        · exact Or.inl hs
        · simp at hnew
          subst hnew
          exact Or.inr rfl
      · exact Or.inr htitle
    | UNPAID =>
      rw [hA] at ht
      rcases ih (k + 1) _ t ht with hin | htitle
      · exact Or.inl (mem_removeFirstMatch _ _ hin)
      · exact Or.inr htitle
    | NO_CHANGE =>
      rw [hA] at ht
      rcases ih (k + 1) _ t ht with hin | htitle
      · exact Or.inl hin
      · exact Or.inr htitle

-- === CLAIM C4 ===

/-- C4: marking all milestones of a staggered schedule paid creates income
records whose amounts sum to total_amount times the sum of the percentages
over 100; and the staggered handler never creates a record carrying the
full-payment title, whatever milestones change. -/
theorem C4_staggered_sum_no_aggregate
    (today : String) (proj origProj : ProjectData) (newMs oldMs : List Milestone)
    (store : List Txn)
    (hps : proj.payment_schedule = .staggered newMs)
    (hos : origProj.payment_schedule = .staggered oldMs)
    (hall : ∀ mj ∈ newMs, mj.completed = true)
    (holdall : ∀ mo ∈ oldMs, mo.completed = false) :
    handlePaymentStatusChanges today (some origProj) proj store
      = store ++ newlyPaidIncomes today proj oldMs 0 newMs
    ∧ ((newlyPaidIncomes today proj oldMs 0 newMs).map (·.amount)).sum
        = proj.total_amount * ((newMs.map (·.percentage)).sum) / 100
    ∧ ∀ (newMs2 oldMs2 : List Milestone) (store2 : List Txn) (k : Nat),
        ∀ t ∈ handleStaggeredFrom today proj oldMs2 k store2 newMs2,
          t ∉ store2 → t.title ≠ fullIncomeTitle proj.name := by
  refine ⟨?_, ?_, ?_⟩
  · have hroute : handlePaymentStatusChanges today (some origProj) proj store
        = handleStaggeredFrom today proj oldMs 0 store newMs := by
      simp [handlePaymentStatusChanges, hps, hos, PaymentSchedule.isStaggeredType,
        handleStaggeredPaymentChanges, PaymentSchedule.milestonesOf]
    rw [hroute]
    apply handleStaggeredFrom_no_unpaid
    intro j mj hj
    have hget : newMs.get? j = some mj := by simpa using hj
    have hmem : mj ∈ newMs := List.get?_mem hget
    intro hU
    have := (analyze_UNPAID_iff mj oldMs[0 + j]?).mp hU
    rw [hall mj hmem] at this
    exact absurd this.1 (by simp)
  · exact newlyPaidIncomes_amount_sum today proj oldMs holdall newMs 0 hall
  · intro newMs2 oldMs2 store2 k t ht htnot
    rcases mem_handleStaggeredFrom today proj oldMs2 newMs2 k store2 t ht with hin | htitle
    · exact absurd hin htnot
    · rw [htitle]
      exact milestoneTitle_ne_fullTitle proj.name proj.name

/-- Witness for C4: total 1000 with 50 and 50 percent milestones, all marked
paid at once; the created amounts sum to 1000 times 100 over 100. -/
theorem C4_staggered_sum_no_aggregate_witness :
    handlePaymentStatusChanges "2025-08-01"
        (some ⟨"Alpha", "Bob", 1000,
          .staggered [⟨50, none, false, none⟩, ⟨50, none, false, none⟩]⟩)
        ⟨"Alpha", "Bob", 1000,
          .staggered [⟨50, none, true, none⟩, ⟨50, none, true, none⟩]⟩ []
      = [] ++ newlyPaidIncomes "2025-08-01"
          ⟨"Alpha", "Bob", 1000,
            .staggered [⟨50, none, true, none⟩, ⟨50, none, true, none⟩]⟩
          [⟨50, none, false, none⟩, ⟨50, none, false, none⟩] 0
          [⟨50, none, true, none⟩, ⟨50, none, true, none⟩]
    ∧ ((newlyPaidIncomes "2025-08-01"
          ⟨"Alpha", "Bob", 1000,
            .staggered [⟨50, none, true, none⟩, ⟨50, none, true, none⟩]⟩
          [⟨50, none, false, none⟩, ⟨50, none, false, none⟩] 0
          [⟨50, none, true, none⟩, ⟨50, none, true, none⟩]).map (·.amount)).sum
        = (1000 : ℚ) * (([⟨50, none, true, none⟩, ⟨50, none, true, none⟩] :
            List Milestone).map (·.percentage)).sum / 100
    ∧ ∀ (newMs2 oldMs2 : List Milestone) (store2 : List Txn) (k : Nat),
        ∀ t ∈ handleStaggeredFrom "2025-08-01"
            ⟨"Alpha", "Bob", 1000,
              .staggered [⟨50, none, true, none⟩, ⟨50, none, true, none⟩]⟩
            oldMs2 k store2 newMs2,
          t ∉ store2 → t.title ≠ fullIncomeTitle "Alpha" := by
  exact C4_staggered_sum_no_aggregate "2025-08-01"
    ⟨"Alpha", "Bob", 1000, .staggered [⟨50, none, true, none⟩, ⟨50, none, true, none⟩]⟩
    ⟨"Alpha", "Bob", 1000, .staggered [⟨50, none, false, none⟩, ⟨50, none, false, none⟩]⟩
    [⟨50, none, true, none⟩, ⟨50, none, true, none⟩]
    [⟨50, none, false, none⟩, ⟨50, none, false, none⟩]
    [] rfl rfl (by decide) (by decide)

-- === CLAIM C3 (helper lemmas) ===

theorem analyze_NO_CHANGE_iff (nm : Milestone) (om : Option Milestone) :
    analyzeMilestoneStatusChange nm om = .NO_CHANGE ↔
      nm.completed = (om.map (·.completed)).getD false := by
  cases hcn : nm.completed <;> cases hco : (om.map (·.completed)).getD false <;>
    simp [analyzeMilestoneStatusChange, hcn, hco]

theorem milestoneCompletedAt_staggered {p : ProjectData} {ms : List Milestone}
    (hps : p.payment_schedule = .staggered ms) (i : Nat) :
    milestoneCompletedAt p i = ((ms[i]?).map (·.completed)).getD false := by
  cases hmi : ms[i]? <;> simp [milestoneCompletedAt, hps, hmi]

theorem milestoneCompletedAt_lt_len {p : ProjectData} {i : Nat}
    (h : milestoneCompletedAt p i = true) : i < milestonesLen p := by
  cases hps : p.payment_schedule with
  | staggered ms =>
    simp only [milestoneCompletedAt, milestonesLen, hps] at h ⊢
    by_contra hge
    push_neg at hge
    rw [List.getElem?_eq_none hge] at h
    simp at h
  | full d c => simp [milestoneCompletedAt, hps] at h
  | other => simp [milestoneCompletedAt, hps] at h

theorem newlyPaidRelFrom_zero_true {oldMs ms : List Milestone} {i : Nat}
    (h : newlyPaidRelFrom oldMs ms 0 i = true) :
    ∃ m : Milestone, ms[i]? = some m ∧
      analyzeMilestoneStatusChange m oldMs[i]? = .NEWLY_PAID := by
  simp only [newlyPaidRelFrom, Nat.sub_zero] at h
  cases hms : ms[i]? with
  | none => rw [hms] at h; simp at h
  | some m =>
    rw [hms] at h
    simp only [Bool.and_eq_true, beq_iff_eq] at h
    exact ⟨m, rfl, h.2⟩

theorem bool_eq_false_of_ne_true {b : Bool} (h : ¬b = true) : b = false := by
  cases b
  · rfl
  · exact absurd rfl h

theorem handleFullPaymentChanges_eq (today : String) (p : ProjectData)
    (newSch oldSch : PaymentSchedule) (store : List Txn) :
    handleFullPaymentChanges today p newSch oldSch store
      = if newSch.completedFlag && !oldSch.completedFlag then
          store ++ [mkFullPaymentIncome today p newSch]
        else if !newSch.completedFlag && oldSch.completedFlag then
          removeFirstMatch (fullIncomePred p.name) store
        else store := rfl

theorem handleStaggered_step_invariant (today : String) (cur save : ProjectData)
    (curMs saveMs : List Milestone) (i : Nat)
    (hcur : cur.payment_schedule = .staggered curMs)
    (hsave : save.payment_schedule = .staggered saveMs)
    (hname : save.name = cur.name)
    (hmono : ∀ j : Nat, milestoneCompletedAt cur j = true →
      milestoneCompletedAt save j = true)
    (store : List Txn)
    (hinv : List.countP (milestoneDescMatch cur.name (i + 1)) store
      ≤ (if milestoneCompletedAt cur i then 1 else 0)) :
    List.countP (milestoneDescMatch cur.name (i + 1))
        (handlePaymentStatusChanges today (some cur) save store)
      ≤ (if milestoneCompletedAt save i then 1 else 0) := by
  have hroute : handlePaymentStatusChanges today (some cur) save store
      = handleStaggeredFrom today save curMs 0 store saveMs := by
    simp [handlePaymentStatusChanges, hcur, hsave, PaymentSchedule.isStaggeredType,
      handleStaggeredPaymentChanges, PaymentSchedule.milestonesOf]
  have hnoU : ∀ (j : Nat) (mj : Milestone), saveMs[j]? = some mj →
      analyzeMilestoneStatusChange mj curMs[j]? ≠ .UNPAID := by
    intro j mj hj hU
    obtain ⟨hmjc, holdc⟩ := (analyze_UNPAID_iff mj curMs[j]?).mp hU
    have hcurj : milestoneCompletedAt cur j = true := by
      rw [milestoneCompletedAt_staggered hcur j, holdc]
    have hsavej := hmono j hcurj
    rw [milestoneCompletedAt_staggered hsave j, hj] at hsavej
    simp [hmjc] at hsavej
  rw [hroute, handleStaggeredFrom_no_unpaid today save curMs saveMs 0 store
    (fun j mj hj => by rw [Nat.zero_add]; exact hnoU j mj hj)]
  rw [List.countP_append]
  have hcount := countP_newlyPaidIncomes today save curMs i saveMs 0
  rw [hname] at hcount
  rw [hcount]
  by_cases hrel : newlyPaidRelFrom curMs saveMs 0 i = true
  · obtain ⟨m, hmsi, hA⟩ := newlyPaidRelFrom_zero_true hrel
    obtain ⟨hmc, holdc⟩ := (analyze_NEWLY_PAID_iff m curMs[i]?).mp hA
    have hcuri : milestoneCompletedAt cur i = false := by
      rw [milestoneCompletedAt_staggered hcur i, holdc]
    have hsavei : milestoneCompletedAt save i = true := by
      rw [milestoneCompletedAt_staggered hsave i, hmsi]
      simpa using hmc
    have h0 : List.countP (milestoneDescMatch cur.name (i + 1)) store = 0 := by
      rw [hcuri] at hinv
      simpa using hinv
    simp [hrel, hsavei, h0]
  · have hrelF := bool_eq_false_of_ne_true hrel
    by_cases hsv : milestoneCompletedAt save i = true
    · have hle : List.countP (milestoneDescMatch cur.name (i + 1)) store ≤ 1 :=
        le_trans hinv (by split <;> omega)
      simp [hrelF, hsv]
      omega
    · have hsvF := bool_eq_false_of_ne_true hsv
      have hcuri : milestoneCompletedAt cur i = false := by
        by_contra hcc
        have := hmono i (by
          cases hx : milestoneCompletedAt cur i
          · exact absurd hx hcc
          · rfl)
        rw [this] at hsvF
        exact absurd hsvF (by simp)
      have h0 : List.countP (milestoneDescMatch cur.name (i + 1)) store = 0 := by
        rw [hcuri] at hinv
        simpa using hinv
      simp [hrelF, hsvF, h0]

theorem runSaves_staggered_invariant (today : String) (i : Nat) :
    ∀ (saves : List ProjectData) (cur : ProjectData) (store : List Txn),
      monotoneStaggeredRun cur saves = true →
      cur.payment_schedule.isStaggeredType = true →
      List.countP (milestoneDescMatch cur.name (i + 1)) store
        ≤ (if milestoneCompletedAt cur i then 1 else 0) →
      List.countP (milestoneDescMatch cur.name (i + 1))
        (runSaves today cur saves store) ≤ 1 := by
  intro saves
  induction saves with
  | nil =>
    intro cur store _ _ hinv
    simp only [runSaves]
    exact le_trans hinv (by split <;> omega)
  | cons save rest ih =>
    intro cur store hrun hstag hinv
    simp only [monotoneStaggeredRun, Bool.and_eq_true] at hrun
    obtain ⟨⟨⟨hsavestag, hnamebeq⟩, hrange⟩, hrest⟩ := hrun
    have hname : save.name = cur.name := beq_iff_eq.mp hnamebeq
    obtain ⟨curMs, hcur⟩ : ∃ ms, cur.payment_schedule = .staggered ms := by
      cases hc : cur.payment_schedule <;>
        simp [PaymentSchedule.isStaggeredType, hc] at hstag ⊢
    obtain ⟨saveMs, hsave⟩ : ∃ ms, save.payment_schedule = .staggered ms := by
      cases hc : save.payment_schedule <;>
        simp [PaymentSchedule.isStaggeredType, hc] at hsavestag ⊢
    have hmono : ∀ j : Nat, milestoneCompletedAt cur j = true →
        milestoneCompletedAt save j = true := by
      intro j hj
      have hlt : j < milestonesLen cur := milestoneCompletedAt_lt_len hj
      have hall := List.all_eq_true.mp hrange j (List.mem_range.mpr hlt)
      rw [hj] at hall
      simpa using hall
    have hstep := handleStaggered_step_invariant today cur save curMs saveMs i
      hcur hsave hname hmono store hinv
    simp only [runSaves]
    have hgoal := ih save (handlePaymentStatusChanges today (some cur) save store)
      hrest (by simp [hsave, PaymentSchedule.isStaggeredType])
      (by rw [hname]; exact hstep)
    rw [hname] at hgoal
    exact hgoal

theorem handleFull_step_invariant (today : String) (cur save : ProjectData)
    (hsave : save.payment_schedule.isFullType = true)
    (hname : save.name = cur.name)
    (store : List Txn)
    (hinv : List.countP (fullIncomePred cur.name) store
      ≤ (if cur.payment_schedule.completedFlag then 1 else 0)) :
    List.countP (fullIncomePred cur.name)
        (handlePaymentStatusChanges today (some cur) save store)
      ≤ (if save.payment_schedule.completedFlag then 1 else 0) := by
  obtain ⟨d, c, hfs⟩ : ∃ d c, save.payment_schedule = .full d c := by
    cases hc : save.payment_schedule <;>
      simp [PaymentSchedule.isFullType, hc] at hsave ⊢
  have hroute : handlePaymentStatusChanges today (some cur) save store
      = handleFullPaymentChanges today save (.full d c) cur.payment_schedule store := by
    simp [handlePaymentStatusChanges, hfs, PaymentSchedule.isStaggeredType,
      PaymentSchedule.isFullType]
  have hflag : save.payment_schedule.completedFlag = c := by
    rw [hfs]
    rfl
  rw [hroute, hflag, handleFullPaymentChanges_eq, hname]
  rw [show (PaymentSchedule.full d c).completedFlag = c from rfl]
  obtain ⟨was, hwas⟩ : ∃ w, cur.payment_schedule.completedFlag = w := ⟨_, rfl⟩
  rw [hwas] at hinv ⊢
  have hone : List.countP (fullIncomePred cur.name)
      [mkFullPaymentIncome today save (.full d c)] = 1 := by
    simp [List.countP_cons, fullIncomePred, mkFullPaymentIncome, hname]
  cases c with
  | true =>
    cases was with
    | false =>
      simp only [Bool.not_false, Bool.and_true, Bool.true_and, if_true]
      rw [List.countP_append, hone]
      simpa using hinv
    | true =>
      simp only [Bool.not_true, Bool.and_false, Bool.true_and, Bool.false_and,
        Bool.false_eq_true, if_false]
      simpa using hinv
  | false =>
    cases was with
    | false =>
      simp only [Bool.not_false, Bool.false_and, Bool.and_false,
        Bool.false_eq_true, if_false]
      simpa using hinv
    | true =>
      simp only [Bool.not_false, Bool.false_and, Bool.not_true, Bool.true_and,
        Bool.and_true, Bool.false_eq_true, if_false, if_true]
      rw [countP_removeFirstMatch]
      simp at hinv ⊢
      omega

theorem runSaves_full_invariant (today : String) :
    ∀ (saves : List ProjectData) (cur : ProjectData) (store : List Txn),
      fullTypeRun cur saves = true →
      List.countP (fullIncomePred cur.name) store
        ≤ (if cur.payment_schedule.completedFlag then 1 else 0) →
      List.countP (fullIncomePred cur.name)
        (runSaves today cur saves store) ≤ 1 := by
  intro saves
  induction saves with
  | nil =>
    intro cur store _ hinv
    simp only [runSaves]
    exact le_trans hinv (by split <;> omega)
  | cons save rest ih =>
    intro cur store hrun hinv
    simp only [fullTypeRun, Bool.and_eq_true] at hrun
    obtain ⟨⟨hsavefull, hnamebeq⟩, hrest⟩ := hrun
    have hname : save.name = cur.name := beq_iff_eq.mp hnamebeq
    have hstep := handleFull_step_invariant today cur save hsavefull hname store hinv
    simp only [runSaves]
    have hgoal := ih save (handlePaymentStatusChanges today (some cur) save store)
      hrest (by rw [hname]; exact hstep)
    rw [hname] at hgoal
    exact hgoal

theorem newlyPaidIncomes_nil (today : String) (proj : ProjectData)
    (oldMs : List Milestone) :
    ∀ (ms : List Milestone) (k : Nat),
      (∀ (j : Nat) (mj : Milestone), ms[j]? = some mj →
        analyzeMilestoneStatusChange mj oldMs[k + j]? ≠ .NEWLY_PAID) →
      newlyPaidIncomes today proj oldMs k ms = [] := by
  intro ms
  induction ms with
  | nil => intro k _; rfl
  | cons m rest ih =>
    intro k h
    have h0 := h 0 m (by simp)
    rw [show k + 0 = k by omega] at h0
    simp only [newlyPaidIncomes, h0, if_false]
    rw [ih (k + 1) (fun j mj hj => by
      have := h (j + 1) mj (by simpa using hj)
      rwa [show k + (j + 1) = (k + 1) + j by omega] at this)]
    rfl

-- === CLAIM C3 ===

/-- C3 counterexample: the at-most-one-record-per-milestone guarantee fails
on the code as stated.  For project P with two 50 percent milestones: mark
milestone 2, mark milestone 1, unmark milestone 1 (the title-based lookup
deletes milestone 2's record instead), then re-mark milestone 1 — the store
ends with two income records describing milestone 1. -/
theorem C3_counterexample_duplicate_record :
    ¬ (List.countP (milestoneDescMatch "P" (0 + 1))
        (runSaves "2025-01-01"
          ⟨"P", "c", 100, .staggered [⟨50, none, false, none⟩, ⟨50, none, false, none⟩]⟩
          [⟨"P", "c", 100, .staggered [⟨50, none, false, none⟩, ⟨50, none, true, none⟩]⟩,
           ⟨"P", "c", 100, .staggered [⟨50, none, true, none⟩, ⟨50, none, true, none⟩]⟩,
           ⟨"P", "c", 100, .staggered [⟨50, none, false, none⟩, ⟨50, none, true, none⟩]⟩,
           ⟨"P", "c", 100, .staggered [⟨50, none, true, none⟩, ⟨50, none, true, none⟩]⟩]
          []) ≤ 1) := by
  decide

/-- C3 (amended): a save with no status change creates and deletes nothing
(staggered with pointwise-unchanged flags, and full with an unchanged flag);
and the at-most-one-record invariant holds for runs that keep the schedule
type fixed and never unmark a completed milestone: starting with no matching
record, a monotone staggered run leaves at most one income record per
milestone description, and a full-type run (flag toggling freely) leaves at
most one income record with the full-payment title. -/
theorem C3_no_change_and_restricted_invariant (today : String) :
    (∀ (proj origProj : ProjectData) (newMs oldMs : List Milestone) (store : List Txn),
      proj.payment_schedule = .staggered newMs →
      origProj.payment_schedule = .staggered oldMs →
      (∀ (j : Nat) (mj : Milestone), newMs[j]? = some mj →
        mj.completed = ((oldMs[j]?).map (·.completed)).getD false) →
      handlePaymentStatusChanges today (some origProj) proj store = store)
    ∧ (∀ (proj origProj : ProjectData) (store : List Txn),
      proj.payment_schedule.isFullType = true →
      proj.payment_schedule.completedFlag = origProj.payment_schedule.completedFlag →
      handlePaymentStatusChanges today (some origProj) proj store = store)
    ∧ (∀ (origProj : ProjectData) (saves : List ProjectData) (store : List Txn) (i : Nat),
      monotoneStaggeredRun origProj saves = true →
      origProj.payment_schedule.isStaggeredType = true →
      List.countP (milestoneDescMatch origProj.name (i + 1)) store = 0 →
      List.countP (milestoneDescMatch origProj.name (i + 1))
        (runSaves today origProj saves store) ≤ 1)
    ∧ (∀ (origProj : ProjectData) (saves : List ProjectData) (store : List Txn),
      fullTypeRun origProj saves = true →
      List.countP (fullIncomePred origProj.name) store = 0 →
      List.countP (fullIncomePred origProj.name)
        (runSaves today origProj saves store) ≤ 1) := by
  refine ⟨?_, ?_, ?_, ?_⟩
  · intro proj origProj newMs oldMs store hps hos hflags
    have hroute : handlePaymentStatusChanges today (some origProj) proj store
        = handleStaggeredFrom today proj oldMs 0 store newMs := by
      simp [handlePaymentStatusChanges, hps, hos, PaymentSchedule.isStaggeredType,
        handleStaggeredPaymentChanges, PaymentSchedule.milestonesOf]
    have hNC : ∀ (j : Nat) (mj : Milestone), newMs[j]? = some mj →
        analyzeMilestoneStatusChange mj oldMs[j]? = .NO_CHANGE := by
      intro j mj hj
      exact (analyze_NO_CHANGE_iff mj oldMs[j]?).mpr (hflags j mj hj)
    rw [hroute, handleStaggeredFrom_no_unpaid today proj oldMs newMs 0 store
      (fun j mj hj => by rw [Nat.zero_add, hNC j mj hj]; decide)]
    rw [newlyPaidIncomes_nil today proj oldMs newMs 0
      (fun j mj hj => by rw [Nat.zero_add, hNC j mj hj]; decide)]
    simp
  · intro proj origProj store hfull heq
    obtain ⟨d, c, hfs⟩ : ∃ d c, proj.payment_schedule = .full d c := by
      cases hc : proj.payment_schedule <;>
        simp [PaymentSchedule.isFullType, hc] at hfull ⊢
    have hroute : handlePaymentStatusChanges today (some origProj) proj store
        = handleFullPaymentChanges today proj (.full d c)
            origProj.payment_schedule store := by
      simp [handlePaymentStatusChanges, hfs, PaymentSchedule.isStaggeredType,
        PaymentSchedule.isFullType]
    rw [hfs] at heq
    rw [show (PaymentSchedule.full d c).completedFlag = c from rfl] at heq
    rw [hroute, handleFullPaymentChanges_eq,
      show (PaymentSchedule.full d c).completedFlag = c from rfl, ← heq]
    simp
  · intro origProj saves store i hrun hstag h0
    exact runSaves_staggered_invariant today i saves origProj store hrun hstag
      (by rw [h0]; exact Nat.zero_le _)
  · intro origProj saves store hrun h0
    exact runSaves_full_invariant today saves origProj store hrun
      (by rw [h0]; exact Nat.zero_le _)

/-- Witness for C3 (amended): a no-change staggered save and a no-change full
save leave a store untouched; a monotone two-save staggered run and a
toggling three-save full run each end with at most one matching record. -/
theorem C3_no_change_and_restricted_invariant_witness :
    handlePaymentStatusChanges "2025-01-01"
        (some ⟨"E", "e", 100, .staggered [⟨100, none, true, none⟩]⟩)
        ⟨"E", "e", 100, .staggered [⟨100, none, true, none⟩]⟩
        [⟨"2025-01-01", "expense", "Rent", "", 5⟩]
      = [⟨"2025-01-01", "expense", "Rent", "", 5⟩]
    ∧ handlePaymentStatusChanges "2025-01-01"
        (some ⟨"E", "e", 100, .full (some "2025-02-01") true⟩)
        ⟨"E", "e", 100, .full none true⟩
        [⟨"2025-01-01", "expense", "Rent", "", 5⟩]
      = [⟨"2025-01-01", "expense", "Rent", "", 5⟩]
    ∧ List.countP (milestoneDescMatch "P" (0 + 1))
        (runSaves "2025-01-01"
          ⟨"P", "c", 100, .staggered [⟨50, none, false, none⟩, ⟨50, none, false, none⟩]⟩
          [⟨"P", "c", 100, .staggered [⟨50, none, true, none⟩, ⟨50, none, false, none⟩]⟩,
           ⟨"P", "c", 100, .staggered [⟨50, none, true, none⟩, ⟨50, none, true, none⟩]⟩]
          []) ≤ 1
    ∧ List.countP (fullIncomePred "Q")
        (runSaves "2025-01-01"
          ⟨"Q", "q", 200, .full none false⟩
          [⟨"Q", "q", 200, .full none true⟩,
           ⟨"Q", "q", 200, .full none false⟩,
           ⟨"Q", "q", 200, .full none true⟩]
          []) ≤ 1 := by
  refine ⟨?_, ?_, ?_, ?_⟩
  · exact (C3_no_change_and_restricted_invariant "2025-01-01").1
      ⟨"E", "e", 100, .staggered [⟨100, none, true, none⟩]⟩
      ⟨"E", "e", 100, .staggered [⟨100, none, true, none⟩]⟩
      [⟨100, none, true, none⟩] [⟨100, none, true, none⟩]
      [⟨"2025-01-01", "expense", "Rent", "", 5⟩] rfl rfl
      (by
        intro j mj hj
        have hjlt : j < 1 := by
          by_contra hge
          push_neg at hge
          rw [List.getElem?_eq_none (by simpa using hge)] at hj
          exact absurd hj (by simp)
        interval_cases j
        simp only [List.getElem?_cons_zero, Option.some.injEq] at hj
        subst hj
        decide)
  · exact (C3_no_change_and_restricted_invariant "2025-01-01").2.1
      ⟨"E", "e", 100, .full none true⟩
      ⟨"E", "e", 100, .full (some "2025-02-01") true⟩
      [⟨"2025-01-01", "expense", "Rent", "", 5⟩] rfl rfl
  · exact (C3_no_change_and_restricted_invariant "2025-01-01").2.2.1
      ⟨"P", "c", 100, .staggered [⟨50, none, false, none⟩, ⟨50, none, false, none⟩]⟩
      [⟨"P", "c", 100, .staggered [⟨50, none, true, none⟩, ⟨50, none, false, none⟩]⟩,
       ⟨"P", "c", 100, .staggered [⟨50, none, true, none⟩, ⟨50, none, true, none⟩]⟩]
      [] 0 (by decide) rfl rfl
  · exact (C3_no_change_and_restricted_invariant "2025-01-01").2.2.2
      ⟨"Q", "q", 200, .full none false⟩
      [⟨"Q", "q", 200, .full none true⟩,
       ⟨"Q", "q", 200, .full none false⟩,
       ⟨"Q", "q", 200, .full none true⟩]
      [] (by decide) rfl

-- === CLAIM C5 ===

/-- C5: status derivation.  When the current status is outside invoice /
partially_paid / completed (for example inquiry or quotation) it is never
auto-overridden.  Otherwise a full schedule derives completed exactly when its
flag is set and invoice otherwise; a staggered schedule, counting only rows
whose percentage parses to a number greater than zero, derives invoice when
there are no active rows or no completed active rows, completed when all
active rows are completed, and partially_paid otherwise; rows with
non-positive or non-numeric percentage are excluded from all counts, so
inserting one anywhere never changes the result. -/
theorem C5_status_derivation (currentStatus : String) (paymentType : Option String)
    (fullPaymentChecked : Bool) (rows : List MilestoneRow) :
    (currentStatus ∉ (["invoice", "partially_paid", "completed"] : List String) →
      autoUpdateProjectStatus currentStatus paymentType fullPaymentChecked rows
        = currentStatus)
    ∧ (currentStatus ∈ (["invoice", "partially_paid", "completed"] : List String) →
      (paymentType = some "full" →
        autoUpdateProjectStatus currentStatus paymentType fullPaymentChecked rows
          = if fullPaymentChecked then "completed" else "invoice")
      ∧ (paymentType = some "staggered" →
        ((rows.countP milestoneRowActive = 0
            ∨ rows.countP (fun r => milestoneRowActive r && r.completed) = 0) →
          autoUpdateProjectStatus currentStatus paymentType fullPaymentChecked rows
            = "invoice")
        ∧ (0 < rows.countP (fun r => milestoneRowActive r && r.completed) →
          rows.countP (fun r => milestoneRowActive r && r.completed)
            = rows.countP milestoneRowActive →
          autoUpdateProjectStatus currentStatus paymentType fullPaymentChecked rows
            = "completed")
        ∧ (0 < rows.countP (fun r => milestoneRowActive r && r.completed) →
          rows.countP (fun r => milestoneRowActive r && r.completed)
            ≠ rows.countP milestoneRowActive →
          autoUpdateProjectStatus currentStatus paymentType fullPaymentChecked rows
            = "partially_paid")))
    ∧ (∀ (rows1 rows2 : List MilestoneRow) (r : MilestoneRow),
        milestoneRowActive r = false →
        autoUpdateProjectStatus currentStatus paymentType fullPaymentChecked
            (rows1 ++ r :: rows2)
          = autoUpdateProjectStatus currentStatus paymentType fullPaymentChecked
            (rows1 ++ rows2)) := by
  have hcompl : ∀ rs : List MilestoneRow,
      ((rs.filter milestoneRowActive).filter (fun r => r.completed)).length
        = rs.countP (fun r => milestoneRowActive r && r.completed) := by
    intro rs
    rw [← List.countP_eq_length_filter, List.countP_filter]
    exact List.countP_congr (fun x _ => by simp [Bool.and_eq_true, and_comm])
  have hact : ∀ rs : List MilestoneRow,
      (rs.filter milestoneRowActive).length = rs.countP milestoneRowActive :=
    fun rs => (List.countP_eq_length_filter _ _).symm
  refine ⟨?_, ?_, ?_⟩
  · intro hmem
    have hcc : (["invoice", "partially_paid", "completed"].contains currentStatus)
        = false := by
      cases hcase : ["invoice", "partially_paid", "completed"].contains currentStatus
      · rfl
      · exact absurd (by simpa using hcase) hmem
    simp only [autoUpdateProjectStatus, hcc]
    rfl
  · intro hmem
    have hcc : (["invoice", "partially_paid", "completed"].contains currentStatus)
        = true := by simpa using hmem
    constructor
    · intro hft
      simp only [autoUpdateProjectStatus, hcc, hft]
      rfl
    · intro hst
      refine ⟨?_, ?_, ?_⟩
      · intro hz
        rcases hz with hz | hz
        · rw [← hact rows] at hz
          simp only [autoUpdateProjectStatus, hcc, hst, hz]
          rfl
        · rw [← hcompl rows] at hz
          simp only [autoUpdateProjectStatus, hcc, hst, hz, beq_self_eq_true,
            Bool.or_true]
          rfl
      · intro hpos heq
        rw [← hcompl rows] at hpos heq
        rw [← hact rows] at heq
        have h1 : ((rows.filter milestoneRowActive).length == 0) = false :=
          beq_eq_false_iff_ne.mpr (by omega)
        have h2 : (((rows.filter milestoneRowActive).filter
            (fun r => r.completed)).length == 0) = false :=
          beq_eq_false_iff_ne.mpr (by omega)
        have h3 : (((rows.filter milestoneRowActive).filter
            (fun r => r.completed)).length
              == (rows.filter milestoneRowActive).length) = true := by
          rw [heq]
          exact beq_self_eq_true _
        simp only [autoUpdateProjectStatus, hcc, hst, h1, h2, h3]
        rfl
      · intro hpos hne
        rw [← hcompl rows] at hpos hne
        rw [← hact rows] at hne
        have hle : ((rows.filter milestoneRowActive).filter
            (fun r => r.completed)).length ≤ (rows.filter milestoneRowActive).length :=
          List.length_filter_le _ _
        have h1 : ((rows.filter milestoneRowActive).length == 0) = false :=
          beq_eq_false_iff_ne.mpr (by omega)
        have h2 : (((rows.filter milestoneRowActive).filter
            (fun r => r.completed)).length == 0) = false :=
          beq_eq_false_iff_ne.mpr (by omega)
        have h3 : (((rows.filter milestoneRowActive).filter
            (fun r => r.completed)).length
              == (rows.filter milestoneRowActive).length) = false :=
          beq_eq_false_iff_ne.mpr hne
        simp only [autoUpdateProjectStatus, hcc, hst, h1, h2, h3]
        rfl
  · intro rows1 rows2 r hr
    simp only [autoUpdateProjectStatus, List.filter_append, List.filter_cons, hr,
      Bool.false_eq_true, if_false]

/-- Witness for C5: inquiry is never overridden; a checked full schedule gives
completed; one of two active milestones completed gives partially_paid (rows
with percentage zero or not a number excluded); inserting an inactive row
changes nothing. -/
theorem C5_status_derivation_witness :
    autoUpdateProjectStatus "inquiry" (some "staggered") true
        [⟨some 30, true⟩, ⟨some 70, false⟩] = "inquiry"
    ∧ autoUpdateProjectStatus "invoice" (some "full") true
        [⟨some 30, true⟩, ⟨some 70, false⟩]
      = (if true then "completed" else "invoice")
    ∧ autoUpdateProjectStatus "invoice" (some "staggered") false
        [⟨some 30, true⟩, ⟨some 70, false⟩, ⟨none, true⟩, ⟨some 0, true⟩]
      = "partially_paid"
    ∧ autoUpdateProjectStatus "invoice" (some "staggered") false
        ([⟨some 30, true⟩] ++ ⟨none, true⟩ :: [⟨some 70, false⟩])
      = autoUpdateProjectStatus "invoice" (some "staggered") false
        ([⟨some 30, true⟩] ++ [⟨some 70, false⟩]) := by
  refine ⟨?_, ?_, ?_, ?_⟩
  · exact (C5_status_derivation "inquiry" (some "staggered") true
      [⟨some 30, true⟩, ⟨some 70, false⟩]).1 (by decide)
  · exact ((C5_status_derivation "invoice" (some "full") true
      [⟨some 30, true⟩, ⟨some 70, false⟩]).2.1 (by decide)).1 rfl
  · exact (((C5_status_derivation "invoice" (some "staggered") false
      [⟨some 30, true⟩, ⟨some 70, false⟩, ⟨none, true⟩, ⟨some 0, true⟩]).2.1
      (by decide)).2 rfl).2.2 (by decide) (by decide)
  · exact (C5_status_derivation "invoice" (some "staggered") false
      [⟨some 30, true⟩, ⟨some 70, false⟩]).2.2
      [⟨some 30, true⟩] [⟨some 70, false⟩] ⟨none, true⟩ rfl

-- === CLAIM C6 (helper lemmas) ===

theorem txn_not_income_and_expense {t : Txn} (hin : (t.type == "income") = true)
    (hex : (t.type == "expense") = true) : False := by
  simp only [beq_iff_eq] at hin hex
  rw [hin] at hex
  exact absurd hex (by decide)

theorem txnStep_thisCashIn (a b : String) (acc : TxnAgg) (t : Txn) :
    (txnStep a b acc t).thisCashIn
      = if (t.type == "income" && strStartsWith t.date a) = true then
          acc.thisCashIn + t.amount
        else acc.thisCashIn := by
  cases hsa : strStartsWith t.date a <;> cases hsb : strStartsWith t.date b <;>
    cases hin : t.type == "income" <;> cases hex : t.type == "expense" <;>
      first
      | exact absurd rfl (fun _ => txn_not_income_and_expense hin hex)
      | simp [txnStep, hsa, hsb, hin, hex]

theorem txnStep_thisCashOut (a b : String) (acc : TxnAgg) (t : Txn) :
    (txnStep a b acc t).thisCashOut
      = if (t.type == "expense" && strStartsWith t.date a) = true then
          acc.thisCashOut + t.amount
        else acc.thisCashOut := by
  cases hsa : strStartsWith t.date a <;> cases hsb : strStartsWith t.date b <;>
    cases hin : t.type == "income" <;> cases hex : t.type == "expense" <;>
      first
      | exact absurd rfl (fun _ => txn_not_income_and_expense hin hex)
      | simp [txnStep, hsa, hsb, hin, hex]

theorem txnStep_lastCashIn (a b : String) (acc : TxnAgg) (t : Txn) :
    (txnStep a b acc t).lastCashIn
      = if (t.type == "income" && !strStartsWith t.date a
            && strStartsWith t.date b) = true then
          acc.lastCashIn + t.amount
        else acc.lastCashIn := by
  cases hsa : strStartsWith t.date a <;> cases hsb : strStartsWith t.date b <;>
    cases hin : t.type == "income" <;> cases hex : t.type == "expense" <;>
      first
      | exact absurd rfl (fun _ => txn_not_income_and_expense hin hex)
      | simp [txnStep, hsa, hsb, hin, hex]

theorem txnStep_lastCashOut (a b : String) (acc : TxnAgg) (t : Txn) :
    (txnStep a b acc t).lastCashOut
      = if (t.type == "expense" && !strStartsWith t.date a
            && strStartsWith t.date b) = true then
          acc.lastCashOut + t.amount
        else acc.lastCashOut := by
  cases hsa : strStartsWith t.date a <;> cases hsb : strStartsWith t.date b <;>
    cases hin : t.type == "income" <;> cases hex : t.type == "expense" <;>
      first
      | exact absurd rfl (fun _ => txn_not_income_and_expense hin hex)
      | simp [txnStep, hsa, hsb, hin, hex]

theorem txnStep_balance (a b : String) (acc : TxnAgg) (t : Txn) :
    (txnStep a b acc t).balance
      = acc.balance + (if (t.type == "income") = true then t.amount else 0)
        - (if (t.type == "expense") = true then t.amount else 0) := by
  cases hsa : strStartsWith t.date a <;> cases hsb : strStartsWith t.date b <;>
    cases hin : t.type == "income" <;> cases hex : t.type == "expense" <;>
      first
      | exact absurd rfl (fun _ => txn_not_income_and_expense hin hex)
      | simp [txnStep, hsa, hsb, hin, hex]

theorem foldl_txnStep_thisCashIn (a b : String) :
    ∀ (ts : List Txn) (acc : TxnAgg),
      (ts.foldl (txnStep a b) acc).thisCashIn
        = acc.thisCashIn
          + ((ts.filter (fun t => t.type == "income" && strStartsWith t.date a)).map
              (·.amount)).sum := by
  intro ts
  induction ts with
  | nil => intro acc; simp
  | cons t ts ih =>
    intro acc
    rw [List.foldl_cons, ih, txnStep_thisCashIn]
    by_cases hp : (t.type == "income" && strStartsWith t.date a) = true
    · simp only [hp, if_true, List.filter_cons, List.map_cons, List.sum_cons]
      ring
    · have hp2 := bool_eq_false_of_ne_true hp
      simp only [hp2, Bool.false_eq_true, if_false, List.filter_cons]

theorem foldl_txnStep_thisCashOut (a b : String) :
    ∀ (ts : List Txn) (acc : TxnAgg),
      (ts.foldl (txnStep a b) acc).thisCashOut
        = acc.thisCashOut
          + ((ts.filter (fun t => t.type == "expense" && strStartsWith t.date a)).map
              (·.amount)).sum := by
  intro ts
  induction ts with
  | nil => intro acc; simp
  | cons t ts ih =>
    intro acc
    rw [List.foldl_cons, ih, txnStep_thisCashOut]
    by_cases hp : (t.type == "expense" && strStartsWith t.date a) = true
    · simp only [hp, if_true, List.filter_cons, List.map_cons, List.sum_cons]
      ring
    · have hp2 := bool_eq_false_of_ne_true hp
      simp only [hp2, Bool.false_eq_true, if_false, List.filter_cons]

theorem foldl_txnStep_lastCashIn (a b : String) :
    ∀ (ts : List Txn) (acc : TxnAgg),
      (ts.foldl (txnStep a b) acc).lastCashIn
        = acc.lastCashIn
          + ((ts.filter (fun t => t.type == "income" && !strStartsWith t.date a
              && strStartsWith t.date b)).map (·.amount)).sum := by
  intro ts
  induction ts with
  | nil => intro acc; simp
  | cons t ts ih =>
    intro acc
    rw [List.foldl_cons, ih, txnStep_lastCashIn]
    by_cases hp : (t.type == "income" && !strStartsWith t.date a
        && strStartsWith t.date b) = true
    · simp only [hp, if_true, List.filter_cons, List.map_cons, List.sum_cons]
      ring
    · have hp2 := bool_eq_false_of_ne_true hp
      simp only [hp2, Bool.false_eq_true, if_false, List.filter_cons]

theorem foldl_txnStep_lastCashOut (a b : String) :
    ∀ (ts : List Txn) (acc : TxnAgg),
      (ts.foldl (txnStep a b) acc).lastCashOut
        = acc.lastCashOut
          + ((ts.filter (fun t => t.type == "expense" && !strStartsWith t.date a
              && strStartsWith t.date b)).map (·.amount)).sum := by
  intro ts
  induction ts with
  | nil => intro acc; simp
  | cons t ts ih =>
    intro acc
    rw [List.foldl_cons, ih, txnStep_lastCashOut]
    by_cases hp : (t.type == "expense" && !strStartsWith t.date a
        && strStartsWith t.date b) = true
    · simp only [hp, if_true, List.filter_cons, List.map_cons, List.sum_cons]
      ring
    · have hp2 := bool_eq_false_of_ne_true hp
      simp only [hp2, Bool.false_eq_true, if_false, List.filter_cons]

theorem foldl_txnStep_balance (a b : String) :
    ∀ (ts : List Txn) (acc : TxnAgg),
      (ts.foldl (txnStep a b) acc).balance
        = acc.balance
          + ((ts.filter (fun t => t.type == "income")).map (·.amount)).sum
          - ((ts.filter (fun t => t.type == "expense")).map (·.amount)).sum := by
  intro ts
  induction ts with
  | nil => intro acc; simp
  | cons t ts ih =>
    intro acc
    rw [List.foldl_cons, ih, txnStep_balance]
    by_cases hin : (t.type == "income") = true
    · have hex : (t.type == "expense") = false := by
        cases hx : t.type == "expense"
        · rfl
        · exact (txn_not_income_and_expense hin hx).elim
      simp only [hin, hex, if_true, Bool.false_eq_true, if_false,
        List.filter_cons, List.map_cons, List.sum_cons]
      ring
    · have hin2 := bool_eq_false_of_ne_true hin
      by_cases hex : (t.type == "expense") = true
      · simp only [hin2, hex, if_true, Bool.false_eq_true, if_false,
          List.filter_cons, List.map_cons, List.sum_cons]
        ring
      · have hex2 := bool_eq_false_of_ne_true hex
        simp only [hin2, hex2, Bool.false_eq_true, if_false, List.filter_cons]
        ring

-- === CLAIM C6 ===

/-- C6: the transaction pass of the monthly aggregation.  This-month cash in
is the sum of income amounts whose date starts with the viewed month's
YYYY-MM key (cash out analogously for expenses); when no date matches both
month keys at once, the last-month buckets are the corresponding sums for the
previous month's key; when no date matches either key all four buckets are
zero; and the running balance is income minus expense over all transactions
regardless of month. -/
theorem C6_monthly_transaction_pass (year month : Nat) (transactions : List Txn) :
    (processTransactionsPass (monthKey year month)
        (monthKey (prevYearMonth year month).1 (prevYearMonth year month).2)
        transactions).thisCashIn
      = ((transactions.filter (fun t => t.type == "income"
          && strStartsWith t.date (monthKey year month))).map (·.amount)).sum
    ∧ (processTransactionsPass (monthKey year month)
        (monthKey (prevYearMonth year month).1 (prevYearMonth year month).2)
        transactions).thisCashOut
      = ((transactions.filter (fun t => t.type == "expense"
          && strStartsWith t.date (monthKey year month))).map (·.amount)).sum
    ∧ ((∀ t ∈ transactions,
        ¬(strStartsWith t.date (monthKey year month) = true
          ∧ strStartsWith t.date (monthKey (prevYearMonth year month).1
              (prevYearMonth year month).2) = true)) →
      (processTransactionsPass (monthKey year month)
          (monthKey (prevYearMonth year month).1 (prevYearMonth year month).2)
          transactions).lastCashIn
        = ((transactions.filter (fun t => t.type == "income"
            && strStartsWith t.date (monthKey (prevYearMonth year month).1
                (prevYearMonth year month).2))).map (·.amount)).sum
      ∧ (processTransactionsPass (monthKey year month)
          (monthKey (prevYearMonth year month).1 (prevYearMonth year month).2)
          transactions).lastCashOut
        = ((transactions.filter (fun t => t.type == "expense"
            && strStartsWith t.date (monthKey (prevYearMonth year month).1
                (prevYearMonth year month).2))).map (·.amount)).sum)
    ∧ ((∀ t ∈ transactions,
        strStartsWith t.date (monthKey year month) = false
          ∧ strStartsWith t.date (monthKey (prevYearMonth year month).1
              (prevYearMonth year month).2) = false) →
      (processTransactionsPass (monthKey year month)
          (monthKey (prevYearMonth year month).1 (prevYearMonth year month).2)
          transactions).thisCashIn = 0
      ∧ (processTransactionsPass (monthKey year month)
          (monthKey (prevYearMonth year month).1 (prevYearMonth year month).2)
          transactions).thisCashOut = 0
      ∧ (processTransactionsPass (monthKey year month)
          (monthKey (prevYearMonth year month).1 (prevYearMonth year month).2)
          transactions).lastCashIn = 0
      ∧ (processTransactionsPass (monthKey year month)
          (monthKey (prevYearMonth year month).1 (prevYearMonth year month).2)
          transactions).lastCashOut = 0)
    ∧ (processTransactionsPass (monthKey year month)
        (monthKey (prevYearMonth year month).1 (prevYearMonth year month).2)
        transactions).balance
      = ((transactions.filter (fun t => t.type == "income")).map (·.amount)).sum
        - ((transactions.filter (fun t => t.type == "expense")).map (·.amount)).sum := by
  refine ⟨?_, ?_, ?_, ?_, ?_⟩
  · unfold processTransactionsPass
    rw [foldl_txnStep_thisCashIn]
    simp
  · unfold processTransactionsPass
    rw [foldl_txnStep_thisCashOut]
    simp
  · intro hnb
    constructor
    · unfold processTransactionsPass
      rw [foldl_txnStep_lastCashIn]
      have hfc : transactions.filter (fun t => t.type == "income"
            && !strStartsWith t.date (monthKey year month)
            && strStartsWith t.date (monthKey (prevYearMonth year month).1
                (prevYearMonth year month).2))
          = transactions.filter (fun t => t.type == "income"
            && strStartsWith t.date (monthKey (prevYearMonth year month).1
                (prevYearMonth year month).2)) := by
        apply List.filter_congr
        intro x hx
        cases hthis : strStartsWith x.date (monthKey year month) with
        | false => simp [hthis]
        | true =>
          have hlast : strStartsWith x.date (monthKey (prevYearMonth year month).1
              (prevYearMonth year month).2) = false := by
            cases h2 : strStartsWith x.date (monthKey (prevYearMonth year month).1
                (prevYearMonth year month).2) with
            | false => rfl
            | true => exact absurd ⟨hthis, h2⟩ (hnb x hx)
          simp [hthis, hlast]
      rw [hfc]
      simp
    · unfold processTransactionsPass
      rw [foldl_txnStep_lastCashOut]
      have hfc : transactions.filter (fun t => t.type == "expense"
            && !strStartsWith t.date (monthKey year month)
            && strStartsWith t.date (monthKey (prevYearMonth year month).1
                (prevYearMonth year month).2))
          = transactions.filter (fun t => t.type == "expense"
            && strStartsWith t.date (monthKey (prevYearMonth year month).1
                (prevYearMonth year month).2)) := by
        apply List.filter_congr
        intro x hx
        cases hthis : strStartsWith x.date (monthKey year month) with
        | false => simp [hthis]
        | true =>
          have hlast : strStartsWith x.date (monthKey (prevYearMonth year month).1
              (prevYearMonth year month).2) = false := by
            cases h2 : strStartsWith x.date (monthKey (prevYearMonth year month).1
                (prevYearMonth year month).2) with
            | false => rfl
            | true => exact absurd ⟨hthis, h2⟩ (hnb x hx)
          simp [hthis, hlast]
      rw [hfc]
      simp
  · intro hz
    refine ⟨?_, ?_, ?_, ?_⟩
    · unfold processTransactionsPass
      rw [foldl_txnStep_thisCashIn]
      rw [List.filter_eq_nil_iff.mpr (fun t ht => by simp [(hz t ht).1])]
      simp
    · unfold processTransactionsPass
      rw [foldl_txnStep_thisCashOut]
      rw [List.filter_eq_nil_iff.mpr (fun t ht => by simp [(hz t ht).1])]
      simp
    · unfold processTransactionsPass
      rw [foldl_txnStep_lastCashIn]
      rw [List.filter_eq_nil_iff.mpr (fun t ht => by simp [(hz t ht).2])]
      simp
    · unfold processTransactionsPass
      rw [foldl_txnStep_lastCashOut]
      rw [List.filter_eq_nil_iff.mpr (fun t ht => by simp [(hz t ht).2])]
      simp
  · unfold processTransactionsPass
    rw [foldl_txnStep_balance]
    simp

/-- Witness for C6: viewed August 2025 with an income on 2025-08-05 and one
on 2025-07-20 (no date matches both month keys); and a list whose only date
matches neither key gives all-zero buckets. -/
theorem C6_monthly_transaction_pass_witness :
    (processTransactionsPass (monthKey 2025 8)
        (monthKey (prevYearMonth 2025 8).1 (prevYearMonth 2025 8).2)
        [⟨"2025-08-05", "income", "Sale", "", 1000⟩,
         ⟨"2025-07-20", "income", "Sale2", "", 400⟩]).lastCashIn
      = ((([⟨"2025-08-05", "income", "Sale", "", 1000⟩,
           ⟨"2025-07-20", "income", "Sale2", "", 400⟩] : List Txn).filter
          (fun t => t.type == "income"
            && strStartsWith t.date (monthKey (prevYearMonth 2025 8).1
                (prevYearMonth 2025 8).2))).map (·.amount)).sum
    ∧ (processTransactionsPass (monthKey 2025 8)
        (monthKey (prevYearMonth 2025 8).1 (prevYearMonth 2025 8).2)
        [⟨"2024-01-01", "income", "Old", "", 5⟩]).thisCashIn = 0
    ∧ (processTransactionsPass (monthKey 2025 8)
        (monthKey (prevYearMonth 2025 8).1 (prevYearMonth 2025 8).2)
        [⟨"2024-01-01", "income", "Old", "", 5⟩]).lastCashIn = 0 := by
  refine ⟨?_, ?_, ?_⟩
  · exact ((C6_monthly_transaction_pass 2025 8
      [⟨"2025-08-05", "income", "Sale", "", 1000⟩,
       ⟨"2025-07-20", "income", "Sale2", "", 400⟩]).2.2.1 (by decide)).1
  · exact ((C6_monthly_transaction_pass 2025 8
      [⟨"2024-01-01", "income", "Old", "", 5⟩]).2.2.2.1 (by decide)).1
  · exact ((C6_monthly_transaction_pass 2025 8
      [⟨"2024-01-01", "income", "Old", "", 5⟩]).2.2.2.1 (by decide)).2.2.1

-- === CLAIM C7 ===

/-- C7: the quotation pass counts each underlying project id at most once per
month: an entry whose resolved project id (ids of the form id_milestone_i
resolve to the id before the separator) was already counted in its month is a
no-op, so inserting it anywhere yields exactly the same pass result — in
particular the same quotation amounts and counts. -/
theorem C7_quotation_dedup_by_project (nowYear nowMonth lastYear lastMonth : Nat)
    (l1 l2 : List QuotEntry) (e : QuotEntry)
    (hmonths : ¬(nowYear = lastYear ∧ nowMonth = lastMonth))
    (hseen :
      (e.dateYear = nowYear ∧ e.dateMonth = nowMonth ∧
        (processQuotationsPass nowYear nowMonth lastYear lastMonth
          l1).projectsThisMonth.contains (resolveProjectId e) = true)
      ∨ (e.dateYear = lastYear ∧ e.dateMonth = lastMonth ∧
        (processQuotationsPass nowYear nowMonth lastYear lastMonth
          l1).projectsLastMonth.contains (resolveProjectId e) = true)) :
    processQuotationsPass nowYear nowMonth lastYear lastMonth (l1 ++ e :: l2)
      = processQuotationsPass nowYear nowMonth lastYear lastMonth (l1 ++ l2) := by
  simp only [processQuotationsPass] at hseen ⊢
  rw [List.foldl_append, List.foldl_append, List.foldl_cons]
  have hstep : quotStep nowYear nowMonth lastYear lastMonth
      (List.foldl (quotStep nowYear nowMonth lastYear lastMonth)
        { projectsThisMonth := [], projectsLastMonth := [], thisQuotation := 0,
          thisQuotationCount := 0, lastQuotation := 0, lastQuotationCount := 0 } l1) e
      = List.foldl (quotStep nowYear nowMonth lastYear lastMonth)
        { projectsThisMonth := [], projectsLastMonth := [], thisQuotation := 0,
          thisQuotationCount := 0, lastQuotation := 0, lastQuotationCount := 0 } l1 := by
    rcases hseen with ⟨hy, hm, hc⟩ | ⟨hy, hm, hc⟩
    · have hTM : (e.dateYear == nowYear && e.dateMonth == nowMonth) = true := by
        simp [hy, hm]
      have hLM : (e.dateYear == lastYear && e.dateMonth == lastMonth) = false := by
        cases h2 : (e.dateYear == lastYear && e.dateMonth == lastMonth)
        · rfl
        · simp only [Bool.and_eq_true, beq_iff_eq] at h2
          exact absurd ⟨hy.symm.trans h2.1, hm.symm.trans h2.2⟩ hmonths
      simp [quotStep, hTM, hLM, hc]
      intro hmem
      exact absurd (by simpa using hc) hmem
    · have hTM : (e.dateYear == nowYear && e.dateMonth == nowMonth) = false := by
        cases h2 : (e.dateYear == nowYear && e.dateMonth == nowMonth)
        · rfl
        · simp only [Bool.and_eq_true, beq_iff_eq] at h2
          exact absurd ⟨h2.1.symm.trans hy, h2.2.symm.trans hm⟩ hmonths
      have hLM : (e.dateYear == lastYear && e.dateMonth == lastMonth) = true := by
        simp [hy, hm]
      simp [quotStep, hTM, hLM, hc]
      intro hmem
      exact absurd (by simpa using hc) hmem
  rw [hstep]

/-- Witness for C7: with project 7 already counted for the viewed month, a
further milestone-derived entry whose id 7_milestone_2 resolves to project 7
leaves the quotation pass result unchanged. -/
theorem C7_quotation_dedup_by_project_witness :
    processQuotationsPass 2025 8 2025 7
        ([⟨"7", none, "Proj7", 500, "quotation", 2025, 8⟩]
          ++ ⟨"7_milestone_2", none, "Proj7 - Milestone 3", 200,
                "converted_quotation", 2025, 8⟩
            :: [⟨"9", some "9", "Proj9", 100, "quotation", 2025, 7⟩])
      = processQuotationsPass 2025 8 2025 7
        ([⟨"7", none, "Proj7", 500, "quotation", 2025, 8⟩]
          ++ [⟨"9", some "9", "Proj9", 100, "quotation", 2025, 7⟩]) := by
  exact C7_quotation_dedup_by_project 2025 8 2025 7
    [⟨"7", none, "Proj7", 500, "quotation", 2025, 8⟩]
    [⟨"9", some "9", "Proj9", 100, "quotation", 2025, 7⟩]
    ⟨"7_milestone_2", none, "Proj7 - Milestone 3", 200, "converted_quotation", 2025, 8⟩
    (by decide)
    (Or.inl ⟨rfl, rfl, by decide⟩)

-- === CLAIM C8 ===

/-- C8: evaluation at the failing input.  Project P is partially_paid and
staggered with milestone 1 (50 percent, due 2025-08-10) already paid and
milestone 2 unpaid.  The calendar day view for 2025-08-10 still lists the
PAID milestone entry among the day's payables (shouldShowAsPayable answers at
project level and loadProjectData adds paid milestones too), contradicting
the stated filter policy; the income transaction created for that payment
does independently appear in the day's transaction list. -/
theorem C8_paid_milestone_listed_as_payable :
    ((getTransactionsForDate []
        (invoicesOfProject ⟨"p1", "P", "partially_paid", 1000,
          some (.staggered [⟨50, some "2025-08-10", true, none⟩,
                            ⟨50, some "2025-09-10", false, none⟩])⟩)
        "2025-08-10").2.countP (·.is_paid)) = 1
    ∧ (getTransactionsForDate
        [⟨"2025-08-10", "income", "Milestone payment from P",
          "Milestone payment for P (Milestone 1)", 500⟩]
        (invoicesOfProject ⟨"p1", "P", "partially_paid", 1000,
          some (.staggered [⟨50, some "2025-08-10", true, none⟩,
                            ⟨50, some "2025-09-10", false, none⟩])⟩)
        "2025-08-10").1
      = [⟨"2025-08-10", "income", "Milestone payment from P",
          "Milestone payment for P (Milestone 1)", 500⟩] := by
  constructor
  · decide
  · decide
